import Mathlib

/-!
# Verification of the quant-k bridge servers

Shallow embedding of `plugins/quant-k/bridge/base_bridge.py` (JSON-RPC 2.0
line transport), `screener_bridge.py` (condition DSL and screening engine)
and `factor_bridge.py` (factor scoring, composite scoring, disk cache).

Python floats are modelled as exact rationals (`ℚ`), `NaN` as `Option.none`,
Python dicts as association lists, the on-disk cache and saved-screen
directory as explicit state values, and the external `pykrx` data source as
an environment of abstract functions supplied to each operation.
-/

namespace QuantK

/-! ## JSON values

A parsed Python `json.loads` result: numbers are collapsed to `ℚ`
(int/float distinction is irrelevant to the bridge code paths modelled
here), objects are association lists in key order with a later duplicate
key overriding an earlier one, exactly as `json.loads` produces dicts. -/

inductive Json where
  | null
  | bool (b : Bool)
  | num (q : ℚ)
  | str (s : String)
  | arr (elems : List Json)
  | obj (fields : List (String × Json))
  deriving Repr

/-- Python dict lookup on the association list built from a JSON object:
the last binding of a key wins, as in `json.loads`. -/
def objGet (fields : List (String × Json)) (key : String) : Option Json :=
  match fields with
  | [] => none
  | (k, v) :: rest =>
    match objGet rest key with
    | some w => some w
    | none => if k = key then some v else none

/-- Python truthiness of a JSON-decoded value (`if not method:`). -/
def Json.isFalsy : Json → Bool
  | .null => true
  | .bool b => !b
  | .num q => q = 0
  | .str s => s = ""
  | .arr l => l.isEmpty
  | .obj l => l.isEmpty

/-- Python `hash(x)` raises `TypeError` on lists and dicts; a membership
test `x in some_dict` therefore crashes for those values. -/
def Json.isUnhashable : Json → Bool
  | .arr _ => true
  | .obj _ => true
  | _ => false

/-- Python `value == "some string"`: only the equal string compares equal. -/
def jsonEqStr (j : Json) (s : String) : Bool :=
  match j with
  | .str t => t = s
  | _ => false

/-! ## Errors

`BridgeErr` covers the exceptions the bridge code can raise while serving
a request: the typed `JsonRpcError` of `base_bridge.py` and the Python
builtin exceptions reachable in the modelled code paths. -/

inductive BridgeErr where
  | rpcError (code : Int) (message : String) (data : Option Json)
  | pyKeyError (key : String)
  | pyZeroDivision
  | pyTypeError (message : String)
  | pyAttributeError (message : String)
  deriving Repr

/-- The error code `_handle_request` puts in the response for an exception
raised inside a handler: a `JsonRpcError` passes its own code through, any
other exception becomes internal error `-32603` (lines 102-106). -/
def surfacedCode : BridgeErr → Int
  | .rpcError c _ _ => c
  | _ => -32603

/-- Python `str(e)` for the exceptions above, as embedded in the
`"Internal error: ..."` message. -/
def errText : BridgeErr → String
  | .rpcError _ m _ => m
  | .pyKeyError k => "'" ++ k ++ "'"
  | .pyZeroDivision => "float division by zero"
  | .pyTypeError m => m
  | .pyAttributeError m => m

/-! ## The JSON-RPC transport (`base_bridge.py`)

A handler is a Python callable taking the `params` value; it either
returns a result, raises a `JsonRpcError`, or raises some other
exception — all represented by `Except BridgeErr Json`.  The registry is
the `_methods` dict (string keys only, since `register_method` takes a
`str` name). -/

abbrev Handler := Json → Except BridgeErr Json

structure Registry where
  handlers : List (String × Handler)

/-- `method not in self._methods` for an arbitrary decoded `method` value:
a non-string hashable value is simply absent (dict keys are strings); an
unhashable value makes the membership test itself raise `TypeError`.
`none` = membership test crashed. -/
def methodLookup (reg : Registry) (m : Json) : Option (Option Handler) :=
  match m with
  | .str s => some (reg.handlers.lookup s)
  | .arr _ => none
  | .obj _ => none
  | _ => some none

/-- One wire response: success `{jsonrpc, id, result}` or error
`{jsonrpc, id, error:{code, message, data?}}`. -/
structure ErrorInfo where
  code : Int
  message : String
  data : Option Json
  deriving Repr

inductive RpcPayload where
  | success (result : Json)
  | failure (e : ErrorInfo)
  deriving Repr

structure RpcResponse where
  id : Json
  payload : RpcPayload
  deriving Repr

def RpcResponse.errorCode (r : RpcResponse) : Option Int :=
  match r.payload with
  | .success _ => none
  | .failure e => some e.code

/-- `_error_response` (lines 117-129). -/
def errorResponse (reqId : Json) (code : Int) (message : String)
    (data : Option Json := none) : RpcResponse :=
  { id := reqId, payload := .failure { code := code, message := message, data := data } }

/-- `_success_response` (lines 108-115). -/
def successResponse (reqId : Json) (result : Json) : RpcResponse :=
  { id := reqId, payload := .success result }

/-- A received line after `json.loads`: either a decode failure carrying
the decoder's message, or a decoded JSON value (of any shape). -/
inductive ParsedLine where
  | malformed (msg : String)
  | parsed (j : Json)

/-- `_handle_request` (lines 69-106).  `Except.error` means an exception
escaped `_handle_request` itself (it only guards the handler call, not its
own envelope handling): `AttributeError` when the decoded value is not a
dict, `TypeError` when the method value is unhashable. -/
def handleRequest (reg : Registry) (line : ParsedLine) : Except BridgeErr RpcResponse :=
  match line with
  | .malformed m => .ok (errorResponse .null (-32700) ("Parse error: " ++ m))
  | .parsed j =>
    match j with
    | .obj o =>
      if !jsonEqStr ((objGet o "jsonrpc").getD .null) "2.0" then
        .ok (errorResponse ((objGet o "id").getD .null) (-32600)
          "Invalid Request: jsonrpc must be '2.0'")
      else
        let method := (objGet o "method").getD .null
        let params := (objGet o "params").getD (.obj [])
        let reqId := (objGet o "id").getD .null
        if method.isFalsy then
          .ok (errorResponse reqId (-32600) "Invalid Request: method required")
        else
          match methodLookup ⟨reg.handlers⟩ method with
          | none => .error (.pyTypeError "unhashable type")
          | some none => .ok (errorResponse reqId (-32601) "Method not found")
          | some (some h) =>
            match h params with
            | .ok result => .ok (successResponse reqId result)
            | .error e =>
              match e with
              | .rpcError c m d => .ok (errorResponse reqId c m d)
              | other => .ok (errorResponse reqId (-32603)
                  ("Internal error: " ++ errText other))
    | _ => .error (.pyAttributeError "no attribute get")

/-- The response lines `_handle_client` writes for one received line
(lines 151-177): one line normally; none when `_handle_request` raised,
because the exception is only caught outside the read loop and the
connection is torn down. -/
def processLine (reg : Registry) (line : ParsedLine) : List RpcResponse :=
  match handleRequest reg line with
  | .ok r => [r]
  | .error _ => []

/-- The request id a response should echo: the decoded object's `id`
member, `null` when it is absent or the line did not decode to an
object. -/
def lineReqId : ParsedLine → Json
  | .malformed _ => .null
  | .parsed (.obj o) => (objGet o "id").getD .null
  | .parsed _ => .null

/-- `_handle_ping` (lines 60-62). -/
def pingHandler (methodNames : List String) : Handler := fun _ =>
  .ok (.obj [("pong", .bool true), ("methods", .arr (methodNames.map .str))])

/-- `_handle_shutdown` (lines 64-67); the event-loop shutdown flag is
connection plumbing outside this per-line model. -/
def shutdownHandler : Handler := fun _ =>
  .ok (.obj [("shutting_down", .bool true)])

/-- The registry every bridge starts with (`BaseBridge.__init__`). -/
def baseRegistry : Registry :=
  { handlers := [("ping", pingHandler ["ping", "shutdown"]), ("shutdown", shutdownHandler)] }

/-! ## String helpers mirroring the Python primitives used by the DSL -/

/-- Python `str.strip()` on a character list. -/
def pyStrip (s : List Char) : List Char :=
  ((s.dropWhile Char.isWhitespace).reverse.dropWhile Char.isWhitespace).reverse

/-- Does `needle` occur at the head of `hay`? -/
def leadsWith : List Char → List Char → Bool
  | [], _ => true
  | _ :: _, [] => false
  | a :: as, b :: bs => a == b && leadsWith as bs

/-- Python `needle in hay` for strings (substring containment). -/
def containsSeq (needle : List Char) : List Char → Bool
  | [] => needle.isEmpty
  | c :: t => leadsWith needle (c :: t) || containsSeq needle t

/-- Python `hay.endswith(suffix)`. -/
def trailsWith (suffix hay : List Char) : Bool :=
  leadsWith suffix.reverse hay.reverse

/-- Python `s.split(sep)` for a non-empty separator, via a fuel bound on
the scanned length (the separator is consumed, so fuel `s.length + 1`
always suffices). -/
def splitSeqGo (sep : List Char) : Nat → List Char → List Char → List (List Char)
  | 0, acc, rest => [acc.reverse ++ rest]
  | fuel + 1, acc, rest =>
    match rest with
    | [] => [acc.reverse]
    | c :: t =>
      if leadsWith sep rest then
        acc.reverse :: splitSeqGo sep fuel [] (rest.drop sep.length)
      else
        splitSeqGo sep fuel (c :: acc) t

def splitSeq (sep s : List Char) : List (List Char) :=
  splitSeqGo sep (s.length + 1) [] s

/-- Digit run value. -/
def digitsToNat (ds : List Char) : Nat :=
  ds.foldl (fun acc c => acc * 10 + (c.toNat - 48)) 0

/-- Split a leading `-`/`+` sign off a numeral. -/
def splitSign (s : List Char) : Bool × List Char :=
  match s with
  | [] => (false, [])
  | c :: t =>
    if c = '-' then (true, t)
    else if c = '+' then (false, t)
    else (false, c :: t)

/-- Split a leading `.`-plus-digit-run off a numeral remainder. -/
def splitFrac (s : List Char) : List Char × List Char :=
  match s with
  | [] => ([], [])
  | c :: t =>
    if c = '.' then (t.takeWhile Char.isDigit, t.dropWhile Char.isDigit)
    else ([], c :: t)

/-- Modelled from the Python builtin `float(str)` (external to this
repository) on finite decimal literals: optional sign, integer and/or
fractional digit runs, optional decimal exponent.  Exotic accepted forms
(`inf`, `nan`, underscore separators, leading/trailing whitespace) are
outside the inputs the DSL meets after its own `strip`. -/
def parsePyFloat (s : List Char) : Option ℚ :=
  let neg := (splitSign s).1
  let r1 := (splitSign s).2
  let ip := r1.takeWhile Char.isDigit
  let r2 := r1.dropWhile Char.isDigit
  let fp := (splitFrac r2).1
  let r3 := (splitFrac r2).2
  if ip.isEmpty && fp.isEmpty then none
  else
    let mant : ℚ := (digitsToNat ip : ℚ) + (digitsToNat fp : ℚ) / (10 : ℚ) ^ fp.length
    let signed := if neg then -mant else mant
    match r3 with
    | [] => some signed
    | e :: t =>
      if e = 'e' ∨ e = 'E' then
        let eneg := (splitSign t).1
        let t1 := (splitSign t).2
        let ed := t1.takeWhile Char.isDigit
        if ed.isEmpty || !(t1.dropWhile Char.isDigit).isEmpty then none
        else
          let ex : ℤ := if eneg then -(digitsToNat ed : ℤ) else (digitsToNat ed : ℤ)
          some (signed * (10 : ℚ) ^ ex)
      else none

/-! ## The condition DSL (`screener_bridge.py`, class `DSLParser`) -/

/-- `FACTOR_ALIASES` (lines 20-26). -/
def FACTOR_ALIASES : List (String × String) :=
  [("시총", "MARKET_CAP"), ("시가총액", "MARKET_CAP"),
   ("배당률", "DIV"), ("배당수익률", "DIV"),
   ("자기자본이익률", "ROE")]

/-- `UNIT_MULTIPLIERS` (lines 39-44), in dict insertion order. -/
def UNIT_MULTIPLIERS : List (String × ℚ) :=
  [("조", 1000000000000), ("억", 100000000), ("만", 10000), ("%", 1)]

/-- The operator probe order of `parse_condition` (line 61): two-character
operators before one-character ones. -/
def OPERATOR_ORDER : List String := ["<=", ">=", "==", "!=", "<", ">"]

/-- The comparison each `OPERATORS` entry performs on a dataframe column
(lines 29-36), with pandas float/NaN semantics: every comparison with
`NaN` is false except `!=`, which is true. -/
def opEval (op : String) (x : Option ℚ) (v : ℚ) : Bool :=
  match x with
  | none => op = "!="
  | some a =>
    if op = "<=" then a ≤ v
    else if op = ">=" then a ≥ v
    else if op = "<" then a < v
    else if op = ">" then a > v
    else if op = "==" then a = v
    else if op = "!=" then !(a = v)
    else false

/-- `OPERATORS.get(operator)` membership (the dict's key set). -/
def opKnown (op : String) : Bool :=
  op = "<=" || op = ">=" || op = "<" || op = ">" || op = "==" || op = "!="

/-- The first operator of `OPERATOR_ORDER` occurring anywhere in the
condition (the `for op in [...]: if op in condition` loop, lines 61-64). -/
def findOperator (cs : List Char) : Option String :=
  (OPERATOR_ORDER.filter (fun op => containsSeq op.toList cs)).head?

/-- `DSLParser._parse_value` (lines 85-102). -/
def parseValue (valueStr : List Char) : Except BridgeErr ℚ :=
  let v := pyStrip valueStr
  match (UNIT_MULTIPLIERS.filter (fun u => trailsWith u.1.toList v)).head? with
  | some (unit, mult) =>
    let numberPart := v.take (v.length - unit.toList.length)
    match parsePyFloat numberPart with
    | some q => .ok (q * mult)
    | none => .error (.rpcError 1301 ("Invalid number: " ++ String.mk numberPart) none)
  | none =>
    match parsePyFloat v with
    | some q => .ok q
    | none => .error (.rpcError 1301 ("Invalid value: " ++ String.mk v) none)

/-- `DSLParser.parse_condition` (lines 47-82). -/
def parseCondition (condition : String) : Except BridgeErr (String × String × ℚ) :=
  let cs := pyStrip condition.toList
  match findOperator cs with
  | none => .error (.rpcError 1301 ("No operator found in condition: " ++ String.mk cs) none)
  | some op =>
    match splitSeq op.toList cs with
    | [factorPart, valuePart] =>
      let factorRaw := String.mk (pyStrip factorPart)
      let factor := (FACTOR_ALIASES.lookup factorRaw).getD factorRaw
      match parseValue valuePart with
      | .ok value => .ok (factor, op, value)
      | .error e => .error e
    | _ => .error (.rpcError 1301 ("Invalid condition format: " ++ String.mk cs) none)

/-! ## The screening engine (`screener_bridge.py`, class `ScreenerBridge`)

The market dataframe produced by `_get_market_data` (pykrx fundamentals
joined with market cap, a derived ROE column, and a string `name` column)
is modelled as a `Snapshot`: the numeric column names plus one row per
ticker.  The single non-numeric column `name` is carried on the row
directly.  A column binding absent from a row (possible after the
`market="ALL"` concat of two frames with different columns) reads as
`NaN`, exactly as `pd.concat` alignment produces. -/

structure ScreenRow where
  ticker : String
  name : String
  values : List (String × Option ℚ)
  deriving Repr, DecidableEq

/-- `df[col][row]` for a numeric column: `none` is `NaN`. -/
def rowVal (r : ScreenRow) (c : String) : Option ℚ :=
  (r.values.lookup c).getD none

structure Snapshot where
  cols : List String
  rows : List ScreenRow
  deriving Repr, DecidableEq

/-- `pd.concat([df_kospi, df_kosdaq])`: rows appended, columns outer-joined. -/
def concatSnaps (a b : Snapshot) : Snapshot :=
  { cols := a.cols ++ b.cols.filter (fun c => !a.cols.contains c),
    rows := a.rows ++ b.rows }

/-- The pykrx-backed `_get_market_data` is external data access; the
environment supplies its result per `(market, date)`. -/
structure ScreenerEnv where
  marketData : String → String → Except BridgeErr Snapshot

/-- The market-dispatch block of `screen` (lines 190-198). -/
def getDf (env : ScreenerEnv) (market date : String) : Except BridgeErr Snapshot :=
  if market = "ALL" then
    match env.marketData "KOSPI" date with
    | .error e => .error e
    | .ok kospi =>
      match env.marketData "KOSDAQ" date with
      | .error e => .error e
      | .ok kosdaq => .ok (concatSnaps kospi kosdaq)
  else if market = "KOSPI" || market = "KOSDAQ" then env.marketData market date
  else .error (.rpcError 1101 ("Invalid market: " ++ market) none)

/-- `_apply_condition` (lines 146-156).  `df.columns` is the numeric
columns plus `name`; comparing the string `name` column against a float
raises `TypeError` inside pandas. -/
def applyCondition (cols : List String) (factor op : String) (value : ℚ)
    (rows : List ScreenRow) : Except BridgeErr (List ScreenRow) :=
  if !(cols.contains factor || factor = "name") then
    .error (.rpcError 1201 ("Unknown factor: " ++ factor) none)
  else if !opKnown op then
    .error (.rpcError 1301 ("Unknown operator: " ++ op) none)
  else if factor = "name" then
    .error (.pyTypeError "comparison of str column with float")
  else
    .ok (rows.filter (fun r => opEval op (rowVal r factor) value))

abbrev Cond := String × String × ℚ

/-- The per-condition loop of `screen` (lines 203-207): parse, record the
parsed form, filter. -/
def applyConds (cols : List String) : List String → List ScreenRow →
    Except BridgeErr (List Cond × List ScreenRow)
  | [], rows => .ok ([], rows)
  | c :: cs, rows =>
    match parseCondition c with
    | .error e => .error e
    | .ok (f, op, v) =>
      match applyCondition cols f op v rows with
      | .error e => .error e
      | .ok rows2 =>
        match applyConds cols cs rows2 with
        | .error e => .error e
        | .ok (ps, rows3) => .ok ((f, op, v) :: ps, rows3)

/-- Whether one row passes one raw condition string (specification helper
for the filtering loop; false on a condition that does not parse, a case
in which the whole screen call errors anyway). -/
def condTest (c : String) (r : ScreenRow) : Bool :=
  match parseCondition c with
  | .ok (f, op, v) => opEval op (rowVal r f) v
  | .error _ => false

/-- `parse_conditions`-style batch parse (specification helper relating a
payload's `parsed` field to its raw condition strings). -/
def parseList : List String → Except BridgeErr (List Cond)
  | [] => .ok []
  | c :: cs =>
    match parseCondition c with
    | .error e => .error e
    | .ok x =>
      match parseList cs with
      | .error e => .error e
      | .ok xs => .ok (x :: xs)

/-- Insertion sort, standing in for `DataFrame.sort_values` (an unstable
quicksort); every claim here depends only on the result being a
permutation. -/
def insertBy (le : α → α → Bool) (x : α) : List α → List α
  | [] => [x]
  | y :: ys => if le x y then x :: y :: ys else y :: insertBy le x ys

def sortListBy (le : α → α → Bool) (l : List α) : List α :=
  l.foldr (insertBy le) []

/-- Row order used by `sort_values(by=c, ascending=asc)`: `NaN` sorts
last in both directions. -/
def rowLe (c : String) (asc : Bool) (a b : ScreenRow) : Bool :=
  if c = "name" then (if asc then a.name ≤ b.name else b.name ≤ a.name)
  else
    match rowVal a c, rowVal b c with
    | some x, some y => if asc then x ≤ y else y ≤ x
    | some _, none => true
    | none, some _ => false
    | none, none => true

/-- `df.head(n)` including pandas' negative-`n` meaning (all but the last
`|n|` rows). -/
def headI (n : Int) (l : List α) : List α :=
  if 0 ≤ n then l.take n.toNat else l.take (l.length - (-n).toNat)

/-- Python `round` ties-to-even on exact rationals. -/
def roundHalfEven (q : ℚ) : ℤ :=
  if q - ⌊q⌋ < 1 / 2 then ⌊q⌋
  else if 1 / 2 < q - ⌊q⌋ then ⌊q⌋ + 1
  else if Even ⌊q⌋ then ⌊q⌋ else ⌊q⌋ + 1

/-- `round(x, k)` of Python, on the exact-rational model of floats. -/
def pyRound (q : ℚ) (k : Nat) : ℚ :=
  (roundHalfEven (q * 10 ^ k) : ℚ) / 10 ^ k

/-- One entry of the `results` list (lines 218-235): numeric values
rounded to two places, `NaN` columns omitted, the `name` column skipped. -/
structure ResultEntry where
  ticker : String
  name : String
  values : List (String × ℚ)
  deriving Repr, DecidableEq

def resultOf (cols : List String) (r : ScreenRow) : ResultEntry :=
  { ticker := r.ticker, name := r.name,
    values := cols.filterMap (fun c => (rowVal r c).map (fun v => (c, pyRound v 2))) }

/-- Python truthiness of an optional string parameter (`if load_name:`). -/
def optStr (s : Option String) : Option String :=
  match s with
  | some t => if t = "" then none else some t
  | none => none

/-- The saved-screens directory, name to stored condition list.
`save_screen` stores `{name, conditions, created}`; only `conditions` is
ever read back by `screen`. -/
abbrev ScreensState := List (String × List String)

/-- `save_screen` (lines 252-266), writing a screen file. -/
def saveScreen (st : ScreensState) (name : String) (conds : List String) :
    Except BridgeErr ScreensState :=
  if name = "" then .error (.rpcError 1301 "Screen name required" none)
  else .ok ((name, conds) :: st.filter (fun e => !(e.1 = name)))

/-- `load_screen` (lines 268-281) followed by `loaded.get("conditions", [])`. -/
def loadScreen (st : ScreensState) (name : String) : Except BridgeErr (List String) :=
  if name = "" then .error (.rpcError 1301 "Screen name required" none)
  else
    match st.lookup name with
    | none => .error (.rpcError 1301 ("Screen not found: " ++ name) none)
    | some cs => .ok cs

structure ScreenParams where
  conditions : List String := []
  market : String := "KOSPI"
  date : String := ""
  sortKey : Option String := none
  sortOrder : String := "desc"
  limit : Int := 100
  load : Option String := none
  save : Option String := none

structure ScreenPayload where
  conditions : List String
  parsed : List Cond
  market : String
  date : String
  matchCount : Nat
  totalCount : Nat
  results : List ResultEntry
  savedAs : Option String
  deriving Repr

/-- The saved-conditions resolution at the head of `screen`
(lines 180-188). -/
def resolveConditions (st : ScreensState) (p : ScreenParams) :
    Except BridgeErr (List String) :=
  match optStr p.load with
  | some nm =>
    match loadScreen st nm with
    | .error e => .error e
    | .ok cs =>
      if cs.isEmpty then
        .error (.rpcError 1301 ("No conditions found in screen: " ++ nm) none)
      else .ok cs
  | none => .ok p.conditions

/-- The body of `screen` once the effective condition list is known
(lines 187-250). -/
def screenWith (env : ScreenerEnv) (st : ScreensState) (p : ScreenParams)
    (conditions : List String) : Except BridgeErr (ScreenPayload × ScreensState) :=
  if conditions.isEmpty then
    .error (.rpcError 1301 "At least one condition required" none)
  else
    match getDf env p.market p.date with
    | .error e => .error e
    | .ok snap =>
      let totalCount := snap.rows.length
      match applyConds snap.cols conditions snap.rows with
      | .error e => .error e
      | .ok (parsed, rows) =>
        let sorted :=
          match optStr p.sortKey with
          | some c =>
            if snap.cols.contains c || c = "name" then
              sortListBy (rowLe c (p.sortOrder = "asc")) rows
            else rows
          | none => rows
        let limited := headI p.limit sorted
        let results := limited.map (resultOf snap.cols)
        let saveE : Except BridgeErr ScreensState :=
          match optStr p.save with
          | some nm => saveScreen st nm conditions
          | none => .ok st
        match saveE with
        | .error e => .error e
        | .ok st2 =>
          .ok ({ conditions := conditions, parsed := parsed, market := p.market,
                 date := p.date, matchCount := results.length,
                 totalCount := totalCount, results := results,
                 savedAs := p.save }, st2)

/-- `ScreenerBridge.screen` (lines 158-250). -/
def screen (env : ScreenerEnv) (st : ScreensState) (p : ScreenParams) :
    Except BridgeErr (ScreenPayload × ScreensState) :=
  match resolveConditions st p with
  | .error e => .error e
  | .ok conditions => screenWith env st p conditions

/-! ## Factor engine (`factor_bridge.py`)

A pandas numeric `Series` is a list of exact rationals with `none` for
`NaN`; pandas statistics (`quantile`, `mean`, `std`) skip `NaN` entries. -/

abbrev Series := List (Option ℚ)

def validVals (s : Series) : List ℚ := s.filterMap id

def sortQ (l : List ℚ) : List ℚ := sortListBy (fun a b => decide (a ≤ b)) l

/-- `Series.quantile(q)` with the default linear interpolation: `NaN` on
an all-`NaN` series. -/
def quantileQ (s : Series) (q : ℚ) : Option ℚ :=
  let xs := sortQ (validVals s)
  let n := xs.length
  if n = 0 then none
  else
    let pos := q * ((n : ℚ) - 1)
    let i := (⌊pos⌋).toNat
    let g := pos - (i : ℚ)
    if i + 1 < n then some (xs.getD i 0 + g * (xs.getD (i + 1) 0 - xs.getD i 0))
    else some (xs.getD i 0)

/-- `Series.clip(lower, upper)` on one defined entry. -/
def clip1 (lo hi : Option ℚ) (v : ℚ) : ℚ :=
  let v1 := match lo with | some l => max v l | none => v
  match hi with | some h => min v1 h | none => v1

def clipS (s : Series) (lo hi : Option ℚ) : Series :=
  s.map (Option.map (clip1 lo hi))

/-- `Series.mean()`: `NaN`-skipping, `NaN` when nothing is left. -/
def meanQ (s : Series) : Option ℚ :=
  let xs := validVals s
  if xs.length = 0 then none else some (xs.sum / (xs.length : ℚ))

/-- The square of `Series.std()` (sample variance, `ddof=1`): `NaN` with
fewer than two defined points. -/
def varQ (s : Series) : Option ℚ :=
  let xs := validVals s
  if xs.length ≤ 1 then none
  else some ((xs.map (fun x => (x - xs.sum / (xs.length : ℚ)) ^ 2)).sum / ((xs.length : ℚ) - 1))

/-- `FactorBridge._zscore` (lines 172-188).  The code's `std` is the
square root of `varQ`; since the variance of an exact-rational series is
a nonnegative rational, `std == 0 or pd.isna(std)` holds exactly when
`varQ` is `some 0` or `none`, so the branch structure is expressed on the
variance.  The square root itself is irrational in general and only
reaches the output in the final (non-degenerate) branch; `sq` abstracts
it there, and every property proved below holds for every `sq`. -/
def zscoreWith (sq : ℚ → ℚ) (s : Series) : Series :=
  if (validVals s).isEmpty then s
  else
    let lower := quantileQ s (1 / 100)
    let upper := quantileQ s (99 / 100)
    let clipped := clipS s lower upper
    let m := (meanQ clipped).getD 0
    match varQ clipped with
    | none => List.replicate s.length (some 0)
    | some v =>
      if v = 0 then List.replicate s.length (some 0)
      else clipped.map (Option.map (fun c => (c - m) / sq v))

/-- One row of a computed factor frame (`ticker`, `raw_value`, `score`);
`dropna()` has already run where the source applies it, so scores are
defined. -/
structure FactorRow where
  ticker : String
  rawValue : ℚ
  score : ℚ
  deriving Repr

abbrev Frame := List FactorRow

/-- `df.set_index("ticker")["score"].to_dict()`: a later duplicate ticker
overwrites an earlier one. -/
def scoresDict (f : Frame) : List (String × ℚ) :=
  f.foldl (fun acc r => acc.filter (fun p => !(p.1 = r.ticker)) ++ [(r.ticker, r.score)]) []

/-- `FACTOR_DEFINITIONS` (lines 17-43). -/
def FACTOR_DEFINITIONS : List (String × String) :=
  [("PER", "value"), ("PBR", "value"), ("PSR", "value"), ("PCR", "value"),
   ("EV_EBITDA", "value"),
   ("MOM_1M", "momentum"), ("MOM_3M", "momentum"), ("MOM_6M", "momentum"),
   ("MOM_12M", "momentum"),
   ("ROE", "profitability"), ("ROA", "profitability"),
   ("GP_MARGIN", "profitability"), ("OP_MARGIN", "profitability"),
   ("SIZE", "size"), ("SIZE_INV", "size"),
   ("VOL_20D", "volatility")]

/-- The three `_calculate_*_factor` computations pull market data from
pykrx (external network access) and are supplied by the environment as
functions of `(factor, market, date)`; they are deterministic for a fixed
historical date. -/
structure FactorEnv where
  valueCalc : String → String → String → Except BridgeErr Frame
  momentumCalc : String → String → String → Except BridgeErr Frame
  profitabilityCalc : String → String → String → Except BridgeErr Frame

/-- The on-disk parquet cache directory: path to frame and file mtime. -/
abbrev CacheState := List (String × (Frame × ℚ))

/-- `_get_cache_path` (lines 68-70). -/
def cachePath (factor market date : String) : String :=
  ".omc/quant-k/data/factors/" ++ factor ++ "_" ++ market ++ "_" ++ date ++ ".parquet"

/-- `_is_cache_valid` (lines 72-79) fused with the subsequent
`pd.read_parquet`: the cached frame when the file exists and is younger
than 24 hours, `none` otherwise. -/
def cacheLookup (st : CacheState) (path : String) (now : ℚ) : Option Frame :=
  match st.lookup path with
  | some (df, mtime) => if (now - mtime) / 3600 < 24 then some df else none
  | none => none

structure CFParams where
  factor : String := ""
  market : String := "KOSPI"
  date : String := ""
  refresh : Bool := false

structure FactorResult where
  factor : String
  date : String
  market : String
  scores : List (String × ℚ)
  cached : Bool
  count : Nat
  deriving Repr

/-- The category dispatch of `calculate_factor` (lines 218-227). -/
def calcDispatch (env : FactorEnv) (category factor market date : String) :
    Except BridgeErr Frame :=
  if category = "value" then env.valueCalc factor market date
  else if category = "momentum" then env.momentumCalc factor market date
  else if category = "profitability" then env.profitabilityCalc factor market date
  else .error (.rpcError 1201 ("Factor category " ++ category ++ " not yet implemented") none)

/-- `calculate_factor` (lines 190-240): validate, serve a valid cache hit
unless `refresh` is set, otherwise compute and overwrite the cache file. -/
def calculateFactor (env : FactorEnv) (st : CacheState) (now : ℚ) (p : CFParams) :
    Except BridgeErr (FactorResult × CacheState) :=
  match FACTOR_DEFINITIONS.lookup p.factor with
  | none => .error (.rpcError 1201 ("Unknown factor: " ++ p.factor) none)
  | some category =>
    if !(p.market = "KOSPI" || p.market = "KOSDAQ") then
      .error (.rpcError 1101 ("Invalid market: " ++ p.market) none)
    else
      let path := cachePath p.factor p.market p.date
      match (if p.refresh then none else cacheLookup st path now) with
      | some df =>
        .ok ({ factor := p.factor, date := p.date, market := p.market,
               scores := scoresDict df, cached := true, count := df.length }, st)
      | none =>
        match calcDispatch env category p.factor p.market p.date with
        | .error e => .error e
        | .ok df =>
          .ok ({ factor := p.factor, date := p.date, market := p.market,
                 scores := scoresDict df, cached := false, count := df.length },
               (path, (df, now)) :: st.filter (fun e => !(e.1 = path)))

/-- The per-factor collection loop of `calculate_composite`
(lines 260-270), threading the cache state. -/
def gatherScores (env : FactorEnv) (market date : String) (now : ℚ) :
    List String → CacheState →
    Except BridgeErr (List (String × List (String × ℚ)) × CacheState)
  | [], st => .ok ([], st)
  | f :: fs, st =>
    match calculateFactor env st now { factor := f, market := market, date := date } with
    | .error e => .error e
    | .ok (r, st2) =>
      match gatherScores env market date now fs st2 with
      | .error e => .error e
      | .ok (rest, st3) => .ok ((f, r.scores) :: rest, st3)

/-- Python dict assignment: update in place or append. -/
def upsert : List (String × ℚ) → String → ℚ → List (String × ℚ)
  | [], k, v => [(k, v)]
  | (a, b) :: t, k, v => if a = k then (k, v) :: t else (a, b) :: upsert t k v

/-- `all_scores[ticker]`: the inner per-factor dict accumulated for one
ticker over the gathered factor results. -/
def tickerScores (gath : List (String × List (String × ℚ))) (t : String) :
    List (String × ℚ) :=
  gath.foldl
    (fun acc fs => match fs.2.lookup t with | some v => upsert acc fs.1 v | none => acc) []

/-- The key order of the `all_scores` dict (first appearance wins). -/
def allTickers (gath : List (String × List (String × ℚ))) : List String :=
  gath.foldl
    (fun acc fs =>
      fs.2.foldl (fun a p => if a.contains p.1 then a else a ++ [p.1]) acc) []

/-- First-insertion key order of a Python dict built from a binding list. -/
def firstSeen (l : List String) : List String :=
  l.foldl (fun acc k => if acc.contains k then acc else acc ++ [k]) []

def lastLookup (l : List (String × ℚ)) (k : String) : Option ℚ :=
  l.reverse.lookup k

/-- The dict a binding list denotes: first-insertion key order, later
value wins. -/
def asDict (l : List (String × ℚ)) : List (String × ℚ) :=
  (firstSeen (l.map Prod.fst)).filterMap (fun k => (lastLookup l k).map (fun v => (k, v)))

/-- `sum(scores[f] * weights[f] for f in factors)`: Python raises
`KeyError` at the first factor missing from either dict. -/
def compositeSum (factors : List String) (sc w : List (String × ℚ)) :
    Except BridgeErr ℚ :=
  match factors with
  | [] => .ok 0
  | f :: fs =>
    match sc.lookup f with
    | none => .error (.pyKeyError f)
    | some s =>
      match w.lookup f with
      | none => .error (.pyKeyError f)
      | some wv =>
        match compositeSum fs sc w with
        | .error e => .error e
        | .ok rest => .ok (s * wv + rest)

/-- The composite-score loop of `calculate_composite` (lines 272-277):
only tickers whose inner dict covers `len(factors)` keys contribute. -/
def buildComposite (factors : List String) (w : List (String × ℚ))
    (gath : List (String × List (String × ℚ))) :
    List String → Except BridgeErr (List (String × ℚ))
  | [] => .ok []
  | t :: ts =>
    let sc := tickerScores gath t
    if sc.length = factors.length then
      match compositeSum factors sc w with
      | .error e => .error e
      | .ok v =>
        match buildComposite factors w gath ts with
        | .error e => .error e
        | .ok rest => .ok ((t, v) :: rest)
    else buildComposite factors w gath ts

structure CCParams where
  factors : List String := []
  weights : List (String × ℚ) := []
  market : String := "KOSPI"
  date : String := ""

structure CompositeResult where
  factors : List String
  weights : List (String × ℚ)
  date : String
  market : String
  compositeScores : List (String × ℚ)
  count : Nat
  deriving Repr

/-- `calculate_composite` (lines 242-286).  The caller-supplied `weights`
arrives as a JSON object, i.e. a dict (`asDict`); dividing by a zero
`total_weight` raises `ZeroDivisionError` in Python. -/
def calculateComposite (env : FactorEnv) (st : CacheState) (now : ℚ) (p : CCParams) :
    Except BridgeErr (CompositeResult × CacheState) :=
  if p.factors.isEmpty then .error (.rpcError 1201 "At least one factor required" none)
  else
    let wIn := asDict p.weights
    let w0 :=
      if wIn.isEmpty then
        asDict (p.factors.map (fun f => (f, (1 : ℚ) / (p.factors.length : ℚ))))
      else wIn
    let total := (w0.map Prod.snd).sum
    if total = 0 then .error .pyZeroDivision
    else
      let w := w0.map (fun kv => (kv.1, kv.2 / total))
      match gatherScores env p.market p.date now p.factors st with
      | .error e => .error e
      | .ok (gath, st2) =>
        match buildComposite p.factors w gath (allTickers gath) with
        | .error e => .error e
        | .ok comp =>
          .ok ({ factors := p.factors, weights := w, date := p.date,
                 market := p.market, compositeScores := comp,
                 count := comp.length }, st2)

structure FEParams where
  ticker : String := ""
  factors : List String := FACTOR_DEFINITIONS.map Prod.fst
  date : String := ""

structure ExposureResult where
  ticker : String
  date : String
  exposures : List (String × ℚ)
  deriving Repr

/-- The per-factor loop of `get_factor_exposure` (lines 334-345): the
market argument is the literal `"KOSPI"`, a failing factor is skipped,
scores are rounded to four places. -/
def exposureLoop (env : FactorEnv) (t date : String) (now : ℚ) :
    List String → CacheState → (List (String × ℚ) × CacheState)
  | [], st => ([], st)
  | f :: fs, st =>
    match calculateFactor env st now { factor := f, market := "KOSPI", date := date } with
    | .error _ => exposureLoop env t date now fs st
    | .ok (r, st2) =>
      let (rest, st3) := exposureLoop env t date now fs st2
      match r.scores.lookup t with
      | some v => ((f, pyRound v 4) :: rest, st3)
      | none => (rest, st3)

/-- `get_factor_exposure` (lines 325-351).  There is no market parameter:
`params.get("market")` is never read. -/
def getFactorExposure (env : FactorEnv) (st : CacheState) (now : ℚ) (p : FEParams) :
    Except BridgeErr (ExposureResult × CacheState) :=
  if p.ticker = "" then .error (.rpcError 1002 "ticker is required" none)
  else
    let (ex, st2) := exposureLoop env p.ticker p.date now p.factors st
    .ok ({ ticker := p.ticker, date := p.date, exposures := ex }, st2)

/-! ## Theorems -/

/-- The envelope condition under which `_handle_request` itself crashes:
a dict request whose `jsonrpc` is `"2.0"` and whose `method` value is
truthy but unhashable (a list or dict), so that the
`method not in self._methods` test raises `TypeError`. -/
def crashyEnvelope (o : List (String × Json)) : Bool :=
  jsonEqStr ((objGet o "jsonrpc").getD .null) "2.0" &&
  !((objGet o "method").getD .null).isFalsy &&
  ((objGet o "method").getD .null).isUnhashable

lemma methodLookup_none_unhashable (reg : Registry) (m : Json) :
    methodLookup reg m = none → m.isUnhashable = true := by
  cases m <;> simp [methodLookup, Json.isUnhashable]

lemma handleRequest_obj_ok (reg : Registry) (o : List (String × Json))
    (h : crashyEnvelope o = false) :
    ∃ r, handleRequest reg (.parsed (.obj o)) = .ok r ∧
      r.id = (objGet o "id").getD .null := by
  simp only [handleRequest]
  split
  · exact ⟨_, rfl, rfl⟩
  · rename_i hj
    simp at hj
    split
    · exact ⟨_, rfl, rfl⟩
    · rename_i hm
      simp only [Bool.not_eq_true] at hm
      split
      · rename_i heq
        exfalso
        have hu := methodLookup_none_unhashable ⟨reg.handlers⟩ _ heq
        simp [crashyEnvelope, hj, hm, hu] at h
      · exact ⟨_, rfl, rfl⟩
      · split
        · exact ⟨_, rfl, rfl⟩
        · split
          · exact ⟨_, rfl, rfl⟩
          · exact ⟨_, rfl, rfl⟩

/-- C1 (counterexample): a line holding valid JSON that is not an object
— here `[1,2,3]` — produces no response line at all: `request.get(...)`
raises `AttributeError`, which escapes `_handle_request` and tears the
connection down, so the claimed "exactly one response" fails. -/
theorem C1_counterexample :
    processLine baseRegistry (.parsed (.arr [.num 1, .num 2, .num 3])) = [] := rfl

/-- C1 (amended): for every received line that either fails to decode or
decodes to a JSON object — excluding the objects whose truthy `method`
value is itself a list or dict — exactly one response is produced on the
connection, and its `id` equals the request's `id`, `null` when the id is
null or absent (and for undecodable lines). -/
theorem C1_line_response (reg : Registry) (line : ParsedLine)
    (h : (∃ m, line = .malformed m) ∨
         ∃ o, line = .parsed (.obj o) ∧ crashyEnvelope o = false) :
    ∃ r, processLine reg line = [r] ∧ r.id = lineReqId line := by
  rcases h with ⟨m, rfl⟩ | ⟨o, rfl, hc⟩
  · exact ⟨_, rfl, rfl⟩
  · obtain ⟨r, hr, hid⟩ := handleRequest_obj_ok reg o hc
    exact ⟨r, by simp [processLine, hr], hid⟩

/-- C1 witness: the amended statement applied to a concrete ping request. -/
theorem C1_witness :
    ∃ r, processLine baseRegistry
        (.parsed (.obj [("jsonrpc", .str "2.0"), ("method", .str "ping"), ("id", .num 1)]))
        = [r] ∧
      r.id = lineReqId
        (.parsed (.obj [("jsonrpc", .str "2.0"), ("method", .str "ping"), ("id", .num 1)])) :=
  C1_line_response baseRegistry _ (Or.inr ⟨_, rfl, by decide⟩)

/-- C2: the standard JSON-RPC codes of envelope validation: an
undecodable line gets `-32700` with a `null` id; an object envelope whose
`jsonrpc` member is missing or differs from `"2.0"` gets `-32600`; a
well-formed envelope naming an unregistered method gets `-32601`. -/
theorem C2_error_codes :
    (∀ (reg : Registry) (m : String),
      processLine reg (.malformed m) =
        [errorResponse .null (-32700) ("Parse error: " ++ m)])
    ∧ (∀ (reg : Registry) (o : List (String × Json)),
        jsonEqStr ((objGet o "jsonrpc").getD .null) "2.0" = false →
        ∃ r, processLine reg (.parsed (.obj o)) = [r] ∧ r.errorCode = some (-32600))
    ∧ (∀ (reg : Registry) (o : List (String × Json)) (name : String),
        objGet o "jsonrpc" = some (.str "2.0") →
        objGet o "method" = some (.str name) →
        name ≠ "" →
        reg.handlers.lookup name = none →
        ∃ r, processLine reg (.parsed (.obj o)) = [r] ∧ r.errorCode = some (-32601)) := by
  refine ⟨fun reg m => rfl, fun reg o hj => ?_, fun reg o name hj hm hne hl => ?_⟩
  · refine ⟨errorResponse ((objGet o "id").getD .null) (-32600)
      "Invalid Request: jsonrpc must be '2.0'", ?_, rfl⟩
    simp [processLine, handleRequest, hj]
  · refine ⟨errorResponse ((objGet o "id").getD .null) (-32601)
      "Method not found", ?_, rfl⟩
    have hfal : (Json.str name).isFalsy = false := by
      simp [Json.isFalsy, hne]
    simp [processLine, handleRequest, hj, hm, jsonEqStr, methodLookup, hfal, hl]

/-- C2 witness: the three code paths at concrete requests against the
base registry. -/
theorem C2_witness :
    (processLine baseRegistry (.malformed "bad") =
      [errorResponse .null (-32700) "Parse error: bad"])
    ∧ (∃ r, processLine baseRegistry (.parsed (.obj [("id", .num 7)])) = [r] ∧
        r.errorCode = some (-32600))
    ∧ (∃ r, processLine baseRegistry
        (.parsed (.obj [("jsonrpc", .str "2.0"), ("method", .str "nope"), ("id", .num 8)]))
          = [r] ∧
        r.errorCode = some (-32601)) :=
  ⟨C2_error_codes.1 baseRegistry "bad",
   C2_error_codes.2.1 baseRegistry [("id", .num 7)] rfl,
   C2_error_codes.2.2 baseRegistry _ "nope" rfl rfl (by decide) rfl⟩

lemma parseCondition_findOperator (s f op : String) (v : ℚ)
    (h : parseCondition s = .ok (f, op, v)) :
    findOperator (pyStrip s.toList) = some op := by
  simp only [parseCondition] at h
  split at h
  · exact absurd h (by simp)
  · rename_i op2 heq
    split at h
    · split at h
      · cases h
        exact heq
      · exact absurd h (by simp)
    · exact absurd h (by simp)

lemma findOperator_lt (cs : List Char) (h : findOperator cs = some "<") :
    containsSeq "<=".toList cs = false := by
  show containsSeq ['<', '='] cs = false
  by_contra hc
  rw [Bool.not_eq_false] at hc
  simp [findOperator, OPERATOR_ORDER, hc] at h

lemma findOperator_gt (cs : List Char) (h : findOperator cs = some ">") :
    containsSeq ">=".toList cs = false := by
  show containsSeq ['>', '='] cs = false
  by_contra hc
  rw [Bool.not_eq_false] at hc
  cases h1 : containsSeq ['<', '='] cs <;>
    simp [findOperator, OPERATOR_ORDER, h1, hc] at h

lemma parseCondition_PER10 : parseCondition "PER<10" = .ok ("PER", "<", 10) := by
  have h : parseCondition "PER<10"
      = .ok ("PER", "<", ((10 : ℕ) : ℚ) + ((0 : ℕ) : ℚ) / (10 : ℚ) ^ (0 : ℕ)) := rfl
  rw [h]; norm_num

lemma parseCondition_sichong :
    parseCondition "시총>1조" = .ok ("MARKET_CAP", ">", 10 ^ 12) := by
  have h : parseCondition "시총>1조"
      = .ok ("MARKET_CAP", ">",
          (((1 : ℕ) : ℚ) + ((0 : ℕ) : ℚ) / (10 : ℚ) ^ (0 : ℕ)) * 1000000000000) := rfl
  rw [h]; norm_num

/-- C4: `"PER<10"` parses to `(PER, <, 10)`; the `시총` (market-cap)
alias with the `조` (trillion) suffix parses to `MARKET_CAP` with the
value scaled by `10^12`; and the operator is matched longest-first: a
condition parsed with `<` cannot contain `<=`, one parsed with `>` cannot
contain `>=`. -/
theorem C4_dsl_parse :
    parseCondition "PER<10" = .ok ("PER", "<", 10)
    ∧ parseCondition "시총>1조" = .ok ("MARKET_CAP", ">", 10 ^ 12)
    ∧ (∀ (s f : String) (v : ℚ), parseCondition s = .ok (f, "<", v) →
        containsSeq "<=".toList (pyStrip s.toList) = false)
    ∧ (∀ (s f : String) (v : ℚ), parseCondition s = .ok (f, ">", v) →
        containsSeq ">=".toList (pyStrip s.toList) = false) :=
  ⟨parseCondition_PER10, parseCondition_sichong,
   fun s f v h => findOperator_lt _ (parseCondition_findOperator s f "<" v h),
   fun s f v h => findOperator_gt _ (parseCondition_findOperator s f ">" v h)⟩

/-- C4 witness: the longest-first conjuncts applied at the two concrete
conditions of the claim. -/
theorem C4_witness :
    containsSeq "<=".toList (pyStrip "PER<10".toList) = false
    ∧ containsSeq ">=".toList (pyStrip "시총>1조".toList) = false :=
  ⟨C4_dsl_parse.2.2.1 "PER<10" "PER" 10 parseCondition_PER10,
   C4_dsl_parse.2.2.2 "시총>1조" "MARKET_CAP" (10 ^ 12) parseCondition_sichong⟩

lemma validVals_replicate_some (n : ℕ) (c : ℚ) :
    validVals (List.replicate n (some c)) = List.replicate n c := by
  induction n with
  | zero => rfl
  | succ m ih => simp [validVals, List.replicate_succ] at ih ⊢

lemma clipS_replicate (n : ℕ) (c : ℚ) (lo hi : Option ℚ) :
    clipS (List.replicate n (some c)) lo hi =
      List.replicate n (some (clip1 lo hi c)) := by
  induction n with
  | zero => rfl
  | succ m ih => simp [clipS, List.replicate_succ] at ih ⊢

lemma varQ_replicate (n : ℕ) (d : ℚ) :
    varQ (List.replicate n (some d)) = if n ≤ 1 then none else some 0 := by
  rw [varQ, validVals_replicate_some]
  simp only [List.length_replicate]
  by_cases h : n ≤ 1
  · simp [h]
  · have hn : (n : ℚ) ≠ 0 := Nat.cast_ne_zero.mpr (by omega)
    have hmean : (List.replicate n d).sum / (n : ℚ) = d := by
      rw [List.sum_replicate, nsmul_eq_mul]
      exact mul_div_cancel_left₀ d hn
    have hmap : (List.replicate n d).map (fun x => (x - (List.replicate n d).sum / (n : ℚ)) ^ 2)
        = List.replicate n 0 := by
      rw [hmean]
      simp [List.map_replicate]
    rw [if_neg h, if_neg h, hmap, List.sum_replicate]
    simp

/-- C3 (amended): the winsorized z-score of a non-empty constant defined
series is everywhere exactly `0.0`, with no error; and more generally,
whenever the series is not entirely `NaN` and the standard deviation of
the clipped series is zero or undefined, every returned score is `0.0`.
(The entirely-`NaN` series is the one exception to the original claim:
the code returns it unchanged, all `NaN`.) -/
theorem C3_zscore_constant :
    (∀ (sq : ℚ → ℚ) (n : ℕ) (c : ℚ), n ≠ 0 →
      zscoreWith sq (List.replicate n (some c)) = List.replicate n (some 0))
    ∧ (∀ (sq : ℚ → ℚ) (s : Series), (validVals s).isEmpty = false →
        (varQ (clipS s (quantileQ s (1 / 100)) (quantileQ s (99 / 100))) = none ∨
         varQ (clipS s (quantileQ s (1 / 100)) (quantileQ s (99 / 100))) = some 0) →
        zscoreWith sq s = List.replicate s.length (some 0)) := by
  constructor
  · intro sq n c hn
    have hne : (validVals (List.replicate n (some c))).isEmpty = false := by
      rw [validVals_replicate_some]
      cases n with
      | zero => exact absurd rfl hn
      | succ m => rfl
    rw [zscoreWith, hne]
    simp only [Bool.false_eq_true, if_false]
    rw [clipS_replicate, varQ_replicate]
    by_cases h1 : n ≤ 1
    · simp [h1]
    · simp [h1]
  · intro sq s hne hvar
    rw [zscoreWith, hne]
    simp only [Bool.false_eq_true, if_false]
    rcases hvar with h | h
    · rw [h]
    · rw [h]
      simp

/-- C3 counterexample: the all-`NaN` series `[NaN]` has an undefined
clipped standard deviation, yet the z-score routine returns it as-is
(`[NaN]`), not as `[0.0]`: the "whenever std is zero or undefined" clause
of the claim fails on entirely-`NaN` input. -/
theorem C3_counterexample :
    varQ (clipS [none] (quantileQ [none] (1 / 100)) (quantileQ [none] (99 / 100))) = none
    ∧ zscoreWith (fun _ => 0) [none] = [none]
    ∧ ([none] : Series) ≠ List.replicate 1 (some (0 : ℚ)) :=
  ⟨rfl, rfl, by simp⟩

/-- C3 witness: the constant branch at `[5, 5, 5]` and the
undefined-deviation branch at `[5, NaN]`. -/
theorem C3_witness :
    zscoreWith (fun _ => 0) (List.replicate 3 (some 5)) = List.replicate 3 (some 0)
    ∧ zscoreWith (fun _ => 0) [some 5, none] = List.replicate 2 (some 0) :=
  ⟨C3_zscore_constant.1 (fun _ => 0) 3 5 (by decide),
   C3_zscore_constant.2 (fun _ => 0) [some 5, none] rfl (Or.inl rfl)⟩

/-- C8: if a `calculate_factor` call with `refresh=false` computes (no
valid cache), then a second call for the same `(factor, market, date)`
within 24 hours of that computation returns the identical per-ticker
scores, reports `cached = true`, and leaves the cache unchanged. -/
theorem C8_cache_idempotent (env : FactorEnv) (st : CacheState) (t1 t2 : ℚ)
    (p : CFParams) (r1 : FactorResult) (st1 : CacheState)
    (hrefresh : p.refresh = false)
    (h1 : calculateFactor env st t1 p = .ok (r1, st1))
    (hcomputed : r1.cached = false)
    (_hle : t1 ≤ t2) (hwin : t2 - t1 < 86400) :
    calculateFactor env st1 t2 p =
      .ok ({ factor := p.factor, date := p.date, market := p.market,
             scores := r1.scores, cached := true, count := r1.count }, st1) := by
  simp only [calculateFactor, hrefresh, Bool.false_eq_true, if_false] at h1 ⊢
  cases hcat : FACTOR_DEFINITIONS.lookup p.factor with
  | none => simp [hcat] at h1
  | some category =>
    simp only [hcat] at h1 ⊢
    cases hmkt : (p.market = "KOSPI" || p.market = "KOSDAQ") with
    | false => simp [hmkt] at h1
    | true =>
      simp only [hmkt, Bool.not_true, Bool.false_eq_true, if_false] at h1 ⊢
      cases hcl : cacheLookup st (cachePath p.factor p.market p.date) t1 with
      | some df =>
        simp only [hcl] at h1
        cases h1
        simp at hcomputed
      | none =>
        simp only [hcl] at h1
        cases hdisp : calcDispatch env category p.factor p.market p.date with
        | error e => simp [hdisp] at h1
        | ok df =>
          simp only [hdisp] at h1
          cases h1
          have hage : (t2 - t1) / 3600 < 24 := by
            rw [div_lt_iff₀ (by norm_num : (0 : ℚ) < 3600)]
            linarith
          have hhit : cacheLookup
              ((cachePath p.factor p.market p.date, (df, t1)) ::
                st.filter (fun e => !(e.1 = cachePath p.factor p.market p.date)))
              (cachePath p.factor p.market p.date) t2 = some df := by
            simp [cacheLookup, List.lookup, hage]
          simp only [hhit]

/-- Environment for the cache-idempotence witness: `PER` computes to a
one-row frame, other categories report missing data. -/
def env8 : FactorEnv :=
  { valueCalc := fun _ _ _ => .ok [{ ticker := "005930", rawValue := 10, score := 1 }],
    momentumCalc := fun _ _ _ => .error (.rpcError 1004 "No momentum data available" none),
    profitabilityCalc := fun _ _ _ => .error (.rpcError 1004 "No data" none) }

def cf8 : CFParams := { factor := "PER", market := "KOSPI", date := "20240102" }

/-- C8 witness: a concrete first computation at time 0 followed by a
cache hit one hour later with identical scores. -/
theorem C8_witness :
    calculateFactor env8
        ((cachePath "PER" "KOSPI" "20240102",
          ([{ ticker := "005930", rawValue := 10, score := 1 }], (0 : ℚ))) :: []) 3600 cf8 =
      .ok ({ factor := "PER", date := "20240102", market := "KOSPI",
             scores := [("005930", 1)], cached := true, count := 1 },
        ((cachePath "PER" "KOSPI" "20240102",
          ([{ ticker := "005930", rawValue := 10, score := 1 }], (0 : ℚ))) :: [])) :=
  C8_cache_idempotent env8 [] 0 3600 cf8
    { factor := "PER", date := "20240102", market := "KOSPI",
      scores := [("005930", 1)], cached := false, count := 1 }
    ((cachePath "PER" "KOSPI" "20240102",
      ([{ ticker := "005930", rawValue := 10, score := 1 }], (0 : ℚ))) :: [])
    rfl rfl rfl (by norm_num) (by norm_num)

/-! ### Association-list (dict) facts shared by the factor-engine claims -/

lemma lookup_eq_none_iff {α : Type} (l : List (String × α)) (k : String) :
    l.lookup k = none ↔ ∀ p ∈ l, ¬ p.1 = k := by
  induction l with
  | nil => simp
  | cons p t ih =>
    rcases p with ⟨a, b⟩
    by_cases hak : k = a
    · subst hak
      simp [List.lookup]
    · have hbeq : (k == a) = false := beq_eq_false_iff_ne.mpr hak
      simp only [List.lookup, hbeq]
      rw [ih]
      constructor
      · intro h p hp
        rcases List.mem_cons.mp hp with rfl | hp2
        · exact fun hc => hak hc.symm
        · exact h p hp2
      · intro h p hp
        exact h p (List.mem_cons_of_mem _ hp)

lemma lookup_mem {α : Type} {l : List (String × α)} {k : String} {v : α}
    (h : l.lookup k = some v) : (k, v) ∈ l := by
  induction l with
  | nil => simp [List.lookup] at h
  | cons p t ih =>
    rcases p with ⟨a, b⟩
    by_cases hak : k = a
    · subst hak
      simp [List.lookup] at h
      simp [h]
    · have hbeq : (k == a) = false := beq_eq_false_iff_ne.mpr hak
      simp only [List.lookup, hbeq] at h
      exact List.mem_cons_of_mem _ (ih h)

lemma lookup_isSome_of_mem_keys {α : Type} {l : List (String × α)} {k : String}
    (h : k ∈ l.map Prod.fst) : (l.lookup k).isSome := by
  by_contra hc
  rw [Option.not_isSome_iff_eq_none, lookup_eq_none_iff] at hc
  obtain ⟨p, hp, hk⟩ := List.mem_map.mp h
  exact hc p hp hk

lemma lookup_map_val {α β : Type} (l : List (String × α)) (g : α → β) (k : String) :
    (l.map (fun kv => (kv.1, g kv.2))).lookup k = (l.lookup k).map g := by
  induction l with
  | nil => rfl
  | cons p t ih =>
    rcases p with ⟨a, b⟩
    by_cases hak : k = a
    · subst hak; simp [List.lookup]
    · have hbeq : (k == a) = false := beq_eq_false_iff_ne.mpr hak
      simp only [List.map_cons, List.lookup, hbeq, ih]

lemma sum_map_div (l : List (String × ℚ)) (c : ℚ) :
    (l.map (fun kv => kv.2 / c)).sum = (l.map Prod.snd).sum / c := by
  induction l with
  | nil => simp
  | cons p t ih => simp [ih, add_div]

/-- The factors paired by `gatherScores` are exactly the requested ones in
order. -/
lemma gatherScores_fst (env : FactorEnv) (market date : String) (now : ℚ) :
    ∀ (fs : List String) (st : CacheState) gath st2,
      gatherScores env market date now fs st = .ok (gath, st2) →
      gath.map Prod.fst = fs := by
  intro fs
  induction fs with
  | nil => intro st gath st2 h; cases h; rfl
  | cons f rest ih =>
    intro st gath st2 h
    simp only [gatherScores] at h
    split at h
    · exact absurd h (by simp)
    · rename_i r st3 hcall
      split at h
      · exact absurd h (by simp)
      · rename_i grest st4 hrest
        cases h
        simpa using ih st3 grest _ hrest

lemma scoresDictAux_mem (fr : Frame) (acc : List (String × ℚ)) (p : String × ℚ)
    (h : p ∈ fr.foldl
      (fun acc r => acc.filter (fun q => !(q.1 = r.ticker)) ++ [(r.ticker, r.score)]) acc) :
    p ∈ acc ∨ ∃ row ∈ fr, p.1 = row.ticker := by
  induction fr generalizing acc with
  | nil => exact Or.inl h
  | cons r rest ih =>
    simp only [List.foldl_cons] at h
    rcases ih _ h with hin | ⟨row, hrow, heq⟩
    · rcases List.mem_append.mp hin with hf | hs
      · exact Or.inl (List.mem_of_mem_filter hf)
      · simp only [List.mem_singleton] at hs
        exact Or.inr ⟨r, List.mem_cons_self r rest, by rw [hs]⟩
    · exact Or.inr ⟨row, List.mem_cons_of_mem _ hrow, heq⟩

lemma scoresDict_lookup_none {t : String} {fr : Frame}
    (h : ∀ row ∈ fr, row.ticker ≠ t) : (scoresDict fr).lookup t = none := by
  rw [lookup_eq_none_iff]
  intro p hp
  rcases scoresDictAux_mem fr [] p hp with hin | ⟨row, hrow, heq⟩
  · simp at hin
  · rw [heq]
    exact fun hc => h row hrow hc

/-- No frame reachable in the cache mentions ticker `t`. -/
def cacheTickerFree (t : String) (st : CacheState) : Prop :=
  ∀ e ∈ st, ∀ row ∈ e.2.1, row.ticker ≠ t

/-- No KOSPI computation of the data environment produces ticker `t`
(the ticker is listed only on another market). -/
def envKospiFree (t : String) (env : FactorEnv) : Prop :=
  (∀ f d fr, env.valueCalc f "KOSPI" d = .ok fr → ∀ row ∈ fr, row.ticker ≠ t) ∧
  (∀ f d fr, env.momentumCalc f "KOSPI" d = .ok fr → ∀ row ∈ fr, row.ticker ≠ t) ∧
  (∀ f d fr, env.profitabilityCalc f "KOSPI" d = .ok fr → ∀ row ∈ fr, row.ticker ≠ t)

lemma calcDispatch_kospi_free {t : String} {env : FactorEnv} (he : envKospiFree t env)
    {category f d : String} {fr : Frame}
    (h : calcDispatch env category f "KOSPI" d = .ok fr) : ∀ row ∈ fr, row.ticker ≠ t := by
  unfold calcDispatch at h
  split_ifs at h with h1 h2 h3
  · exact he.1 f d fr h
  · exact he.2.1 f d fr h
  · exact he.2.2 f d fr h

lemma calculateFactor_kospi_free {t : String} {env : FactorEnv} {st : CacheState}
    {now : ℚ} {p : CFParams} {r : FactorResult} {st2 : CacheState}
    (ht : cacheTickerFree t st) (he : envKospiFree t env) (hm : p.market = "KOSPI")
    (h : calculateFactor env st now p = .ok (r, st2)) :
    r.scores.lookup t = none ∧ cacheTickerFree t st2 := by
  simp only [calculateFactor] at h
  split at h
  · exact absurd h (by simp)
  · rename_i category hcat
    split at h
    · exact absurd h (by simp)
    · split at h
      · rename_i df hdf
        have hdf2 : cacheLookup st (cachePath p.factor p.market p.date) now = some df := by
          cases hrefresh : p.refresh
          · rw [hrefresh] at hdf
            simpa using hdf
          · rw [hrefresh] at hdf
            simp at hdf
        have hfree : ∀ row ∈ df, row.ticker ≠ t := by
          unfold cacheLookup at hdf2
          split at hdf2
          · rename_i pr hlk
            rcases pr with ⟨df0, mtime⟩
            split at hdf2
            · cases hdf2
              exact fun row hrow => ht _ (lookup_mem hlk) row hrow
            · exact absurd hdf2 (by simp)
          · exact absurd hdf2 (by simp)
        cases h
        exact ⟨scoresDict_lookup_none hfree, ht⟩
      · split at h
        · exact absurd h (by simp)
        · rename_i df hdisp
          rw [hm] at hdisp
          cases h
          have hfree : ∀ row ∈ df, row.ticker ≠ t := calcDispatch_kospi_free he hdisp
          refine ⟨scoresDict_lookup_none hfree, ?_⟩
          intro e he2 row hrow
          rcases List.mem_cons.mp he2 with rfl | hmem
          · exact hfree row hrow
          · exact ht e (List.mem_of_mem_filter hmem) row hrow

lemma exposureLoop_empty {t : String} {env : FactorEnv} (he : envKospiFree t env)
    (date : String) (now : ℚ) :
    ∀ (fs : List String) (st : CacheState), cacheTickerFree t st →
      (exposureLoop env t date now fs st).1 = [] := by
  intro fs
  induction fs with
  | nil => intro st _; rfl
  | cons f rest ih =>
    intro st ht
    simp only [exposureLoop]
    split
    · exact ih st ht
    · rename_i r st2 hcall
      obtain ⟨hnone, ht2⟩ := calculateFactor_kospi_free ht he rfl hcall
      simp only [hnone]
      simpa using ih st2 ht2

/-- C9: `get_factor_exposure` consults only the KOSPI universe (the
market argument to every internal `calculate_factor` call is the literal
`"KOSPI"`, and no market parameter exists on the operation): for a ticker
that no KOSPI computation and no cached frame mentions — in particular a
ticker listed only on another market — the call succeeds and returns an
empty exposures map. -/
theorem C9_exposure_kospi_only (env : FactorEnv) (st : CacheState) (now : ℚ)
    (p : FEParams) (hticker : ¬ p.ticker = "")
    (ht : cacheTickerFree p.ticker st) (he : envKospiFree p.ticker env) :
    getFactorExposure env st now p =
      .ok ({ ticker := p.ticker, date := p.date, exposures := [] },
        (exposureLoop env p.ticker p.date now p.factors st).2) := by
  have hemp := exposureLoop_empty he p.date now p.factors st ht
  rcases hloop : exposureLoop env p.ticker p.date now p.factors st with ⟨ex, st2⟩
  rw [hloop] at hemp
  simp only at hemp
  simp [getFactorExposure, hticker, hloop, hemp]

/-- Environment for the KOSPI-only witness: the KOSDAQ universe holds
ticker `999999`, the KOSPI universe only `005930`. -/
def env9 : FactorEnv :=
  { valueCalc := fun _ m _ =>
      if m = "KOSDAQ" then .ok [{ ticker := "999999", rawValue := 1, score := 2 }]
      else .ok [{ ticker := "005930", rawValue := 10, score := 1 }],
    momentumCalc := fun _ _ _ => .error (.rpcError 1004 "No momentum data available" none),
    profitabilityCalc := fun _ _ _ => .error (.rpcError 1004 "No data" none) }

def fe9 : FEParams := { ticker := "999999", factors := ["PER"], date := "20240102" }

/-- C9 witness: the KOSDAQ-only ticker `999999` yields a successful call
with an empty exposures map. -/
theorem C9_witness :
    getFactorExposure env9 [] 0 fe9 =
      .ok ({ ticker := "999999", date := "20240102", exposures := [] },
        (exposureLoop env9 "999999" "20240102" 0 ["PER"] []).2) :=
  C9_exposure_kospi_only env9 [] 0 fe9 (by decide)
    (by intro e he2; simp at he2)
    (by
      refine ⟨?_, ?_, ?_⟩
      · intro f d fr h
        have : fr = [{ ticker := "005930", rawValue := 10, score := 1 }] := by
          simpa [env9] using h.symm
        subst this
        intro row hrow
        simp at hrow
        subst hrow
        decide
      · intro f d fr h
        simp [env9] at h
      · intro f d fr h
        simp [env9] at h)

/-! ### Structure of the `all_scores` inner dicts -/

def keysOf (l : List (String × ℚ)) : List String := l.map Prod.fst

lemma upsert_keys_mem {acc : List (String × ℚ)} {k : String} {v : ℚ}
    (h : k ∈ keysOf acc) : keysOf (upsert acc k v) = keysOf acc := by
  induction acc with
  | nil => simp [keysOf] at h
  | cons p t ih =>
    rcases p with ⟨a, b⟩
    by_cases hak : a = k
    · subst hak
      simp [upsert, keysOf]
    · simp only [keysOf, List.map_cons] at h
      rcases List.mem_cons.mp h with rfl | hmem
      · exact absurd rfl hak
      · simp only [upsert, if_neg hak, keysOf, List.map_cons]
        rw [show List.map Prod.fst (upsert t k v) = keysOf (upsert t k v) from rfl,
          ih hmem]
        rfl

lemma upsert_keys_not_mem {acc : List (String × ℚ)} {k : String} {v : ℚ}
    (h : ¬ k ∈ keysOf acc) : keysOf (upsert acc k v) = keysOf acc ++ [k] := by
  induction acc with
  | nil => rfl
  | cons p t ih =>
    rcases p with ⟨a, b⟩
    simp only [keysOf, List.map_cons, List.mem_cons] at h
    push_neg at h
    show List.map Prod.fst
      (if a = k then (k, v) :: t else (a, b) :: upsert t k v) = _
    rw [if_neg (Ne.symm h.1)]
    simp only [List.map_cons]
    have hih := ih h.2
    simp only [keysOf] at hih
    rw [hih]
    rfl

lemma mem_keys_upsert {acc : List (String × ℚ)} {k k2 : String} {v : ℚ} :
    k2 ∈ keysOf (upsert acc k v) ↔ k2 ∈ keysOf acc ∨ k2 = k := by
  by_cases h : k ∈ keysOf acc
  · rw [upsert_keys_mem h]
    constructor
    · exact Or.inl
    · rintro (h2 | rfl)
      · exact h2
      · exact h
  · rw [upsert_keys_not_mem h]
    simp

lemma nodup_keys_upsert {acc : List (String × ℚ)} {k : String} {v : ℚ}
    (h : (keysOf acc).Nodup) : (keysOf (upsert acc k v)).Nodup := by
  by_cases hmem : k ∈ keysOf acc
  · rw [upsert_keys_mem hmem]; exact h
  · rw [upsert_keys_not_mem hmem]
    simp [List.nodup_append, h, hmem]

/-- The inner-dict accumulation step of `tickerScores`. -/
def tsStep (t : String) (acc : List (String × ℚ)) (pr : String × List (String × ℚ)) :
    List (String × ℚ) :=
  match pr.2.lookup t with
  | some v => upsert acc pr.1 v
  | none => acc

lemma tickerScores_eq_foldl (gath : List (String × List (String × ℚ))) (t : String) :
    tickerScores gath t = gath.foldl (tsStep t) [] := rfl

lemma tsFold_keys_iff (t : String) (gath : List (String × List (String × ℚ))) :
    ∀ (acc : List (String × ℚ)) (k : String),
      k ∈ keysOf (gath.foldl (tsStep t) acc) ↔
        k ∈ keysOf acc ∨ ∃ sc, (k, sc) ∈ gath ∧ (sc.lookup t).isSome := by
  induction gath with
  | nil => intro acc k; simp
  | cons pr rest ih =>
    intro acc k
    rcases pr with ⟨g, sc⟩
    simp only [List.foldl_cons]
    rw [ih]
    cases hsc : sc.lookup t with
    | some v =>
      simp only [tsStep, hsc, mem_keys_upsert]
      constructor
      · rintro ((h | rfl) | ⟨sc2, hmem, hsome⟩)
        · exact Or.inl h
        · exact Or.inr ⟨sc, List.mem_cons_self _ _, by simp [hsc]⟩
        · exact Or.inr ⟨sc2, List.mem_cons_of_mem _ hmem, hsome⟩
      · rintro (h | ⟨sc2, hmem, hsome⟩)
        · exact Or.inl (Or.inl h)
        · rcases List.mem_cons.mp hmem with heq | hmem2
          · exact Or.inl (Or.inr (congrArg Prod.fst heq))
          · exact Or.inr ⟨sc2, hmem2, hsome⟩
    | none =>
      simp only [tsStep, hsc]
      constructor
      · rintro (h | ⟨sc2, hmem, hsome⟩)
        · exact Or.inl h
        · exact Or.inr ⟨sc2, List.mem_cons_of_mem _ hmem, hsome⟩
      · rintro (h | ⟨sc2, hmem, hsome⟩)
        · exact Or.inl h
        · rcases List.mem_cons.mp hmem with heq | hmem2
          · have hs2 : sc2 = sc := congrArg Prod.snd heq
            rw [hs2, hsc] at hsome
            simp at hsome
          · exact Or.inr ⟨sc2, hmem2, hsome⟩

lemma tickerScores_keys_iff {gath : List (String × List (String × ℚ))} {t k : String} :
    k ∈ keysOf (tickerScores gath t) ↔
      ∃ sc, (k, sc) ∈ gath ∧ (sc.lookup t).isSome := by
  rw [tickerScores_eq_foldl, tsFold_keys_iff]
  simp [keysOf]

lemma tsFold_keys_nodup (t : String) (gath : List (String × List (String × ℚ))) :
    ∀ acc : List (String × ℚ), (keysOf acc).Nodup →
      (keysOf (gath.foldl (tsStep t) acc)).Nodup := by
  induction gath with
  | nil => intro acc h; exact h
  | cons pr rest ih =>
    intro acc h
    simp only [List.foldl_cons]
    refine ih _ ?_
    unfold tsStep
    cases hsc : pr.2.lookup t
    · exact h
    · exact nodup_keys_upsert h

lemma tickerScores_keys_nodup {gath : List (String × List (String × ℚ))} {t : String} :
    (keysOf (tickerScores gath t)).Nodup := by
  rw [tickerScores_eq_foldl]
  exact tsFold_keys_nodup t gath [] (by simp [keysOf])

lemma tickerScores_length_keys {gath : List (String × List (String × ℚ))} {t : String} :
    (tickerScores gath t).length = (keysOf (tickerScores gath t)).length := by
  simp [keysOf]

/-- Under duplicate-free keys a key determines its pair. -/
lemma mem_unique_of_nodup_keys {gath : List (String × List (String × ℚ))} {g : String}
    {sc sc2 : List (String × ℚ)} (hnd : (gath.map Prod.fst).Nodup)
    (h1 : (g, sc) ∈ gath) (h2 : (g, sc2) ∈ gath) : sc = sc2 := by
  induction gath with
  | nil => simp at h1
  | cons pr rest ih =>
    simp only [List.map_cons, List.nodup_cons] at hnd
    rcases List.mem_cons.mp h1 with rfl | hm1
    · rcases List.mem_cons.mp h2 with heq | hm2
      · exact (congrArg Prod.snd heq).symm
      · exact absurd (List.mem_map.mpr ⟨(g, sc2), hm2, rfl⟩) hnd.1
    · rcases List.mem_cons.mp h2 with heq | hm2
      · exfalso
        have hg : g ∈ List.map Prod.fst rest := List.mem_map.mpr ⟨(g, sc), hm1, rfl⟩
        rw [← heq] at hnd
        exact hnd.1 hg
      · exact ih hnd.2 hm1 hm2

/-- If one factor's unique result misses ticker `t` (keys duplicate-free),
the inner dict for `t` is strictly smaller than the factor list. -/
lemma tickerScores_length_lt {gath : List (String × List (String × ℚ))} {t g : String}
    {sc : List (String × ℚ)}
    (hmem : (g, sc) ∈ gath) (hnone : sc.lookup t = none)
    (hnd : (gath.map Prod.fst).Nodup) :
    (tickerScores gath t).length < gath.length := by
  have hsub : ∀ k ∈ keysOf (tickerScores gath t),
      k ∈ (gath.map Prod.fst).toFinset.erase g := by
    intro k hk
    obtain ⟨sc2, hmem2, hsome2⟩ := tickerScores_keys_iff.mp hk
    rw [Finset.mem_erase]
    constructor
    · rintro rfl
      rw [mem_unique_of_nodup_keys hnd hmem2 hmem, hnone] at hsome2
      simp at hsome2
    · exact List.mem_toFinset.mpr (List.mem_map.mpr ⟨(k, sc2), hmem2, rfl⟩)
  have hcard : (keysOf (tickerScores gath t)).length ≤
      ((gath.map Prod.fst).toFinset.erase g).card := by
    rw [← List.toFinset_card_of_nodup tickerScores_keys_nodup]
    exact Finset.card_le_card (fun k hk => hsub k (List.mem_toFinset.mp hk))
  have hglen : ((gath.map Prod.fst).toFinset.erase g).card <
      (gath.map Prod.fst).toFinset.card := by
    refine Finset.card_erase_lt_of_mem ?_
    exact List.mem_toFinset.mpr (List.mem_map.mpr ⟨(g, sc), hmem, rfl⟩)
  have hlt := lt_of_le_of_lt hcard hglen
  rw [List.toFinset_card_of_nodup hnd, List.length_map] at hlt
  rw [tickerScores_length_keys]
  exact hlt

/-- With duplicated factors no ticker can cover `len(factors)` keys. -/
lemma tickerScores_length_lt_of_dup {gath : List (String × List (String × ℚ))}
    {t : String} (hnd : ¬ (gath.map Prod.fst).Nodup) :
    (tickerScores gath t).length < gath.length := by
  have hsub : ∀ k ∈ keysOf (tickerScores gath t), k ∈ (gath.map Prod.fst).toFinset := by
    intro k hk
    obtain ⟨sc2, hmem2, _⟩ := tickerScores_keys_iff.mp hk
    exact List.mem_toFinset.mpr (List.mem_map.mpr ⟨(k, sc2), hmem2, rfl⟩)
  have hcard : (keysOf (tickerScores gath t)).length ≤ (gath.map Prod.fst).toFinset.card := by
    rw [← List.toFinset_card_of_nodup tickerScores_keys_nodup]
    exact Finset.card_le_card (fun k hk => hsub k (List.mem_toFinset.mp hk))
  have hdedup : (gath.map Prod.fst).toFinset.card < (gath.map Prod.fst).length := by
    rw [List.card_toFinset]
    rcases Nat.lt_or_ge (gath.map Prod.fst).dedup.length (gath.map Prod.fst).length with h | h
    · exact h
    · exfalso
      have hsl := List.dedup_sublist (gath.map Prod.fst)
      have heq := hsl.eq_of_length (Nat.le_antisymm hsl.length_le h)
      exact hnd (heq ▸ List.nodup_dedup (gath.map Prod.fst))
  rw [tickerScores_length_keys]
  have hlen := lt_of_le_of_lt hcard hdedup
  rwa [List.length_map] at hlen

/-- A ticker that covers every duplicate-free factor has every factor
present in its inner dict. -/
lemma tickerScores_all_present {gath : List (String × List (String × ℚ))} {t : String}
    (hlen : (tickerScores gath t).length = gath.length) :
    ∀ g ∈ gath.map Prod.fst, ((tickerScores gath t).lookup g).isSome := by
  have hkeysub : keysOf (tickerScores gath t) ⊆ gath.map Prod.fst := by
    intro k hk
    obtain ⟨sc2, hmem2, _⟩ := tickerScores_keys_iff.mp hk
    exact List.mem_map.mpr ⟨(k, sc2), hmem2, rfl⟩
  have hperm : List.Perm (keysOf (tickerScores gath t)) (gath.map Prod.fst) := by
    refine List.Subperm.perm_of_length_le
      (List.subperm_of_subset tickerScores_keys_nodup hkeysub) ?_
    rw [← tickerScores_length_keys, hlen, List.length_map]
  intro g hg
  exact lookup_isSome_of_mem_keys (hperm.mem_iff.mpr hg)

/-- `sum(scores[f] * weights[f] ...)` raises `KeyError` when every factor
has a score but some factor has no weight. -/
lemma compositeSum_missing (factors : List String) (sc w : List (String × ℚ))
    (hsc : ∀ g ∈ factors, (sc.lookup g).isSome)
    (hex : ∃ g ∈ factors, w.lookup g = none) :
    ∃ k, compositeSum factors sc w = .error (.pyKeyError k) := by
  induction factors with
  | nil => simp at hex
  | cons g gs ih =>
    obtain ⟨s, hs⟩ := Option.isSome_iff_exists.mp (hsc g (List.mem_cons_self g gs))
    cases hw : w.lookup g with
    | none => exact ⟨g, by simp [compositeSum, hs, hw]⟩
    | some wv =>
      have hex2 : ∃ g2 ∈ gs, w.lookup g2 = none := by
        obtain ⟨g2, hg2, hw2⟩ := hex
        rcases List.mem_cons.mp hg2 with rfl | hmem
        · rw [hw] at hw2; simp at hw2
        · exact ⟨g2, hmem, hw2⟩
      obtain ⟨k, hk⟩ := ih (fun g2 hg2 => hsc g2 (List.mem_cons_of_mem _ hg2)) hex2
      exact ⟨k, by simp [compositeSum, hs, hw, hk]⟩

lemma buildComposite_error {factors : List String} {w : List (String × ℚ)}
    {gath : List (String × List (String × ℚ))}
    (hfst : gath.map Prod.fst = factors)
    (hex : ∃ g ∈ factors, w.lookup g = none) :
    ∀ ts : List String, (∃ t ∈ ts, (tickerScores gath t).length = factors.length) →
      ∃ k, buildComposite factors w gath ts = .error (.pyKeyError k) := by
  intro ts
  induction ts with
  | nil => rintro ⟨t, ht, _⟩; simp at ht
  | cons t2 rest ih =>
    rintro ⟨t, ht, hq⟩
    by_cases hq2 : (tickerScores gath t2).length = factors.length
    · have hall : ∀ g ∈ factors, ((tickerScores gath t2).lookup g).isSome := by
        have := tickerScores_all_present
          (by rw [hq2, ← hfst, List.length_map])
        rw [hfst] at this
        exact this
      obtain ⟨k, hk⟩ := compositeSum_missing factors _ w hall hex
      refine ⟨k, ?_⟩
      simp [buildComposite, hq2, hk]
    · rcases List.mem_cons.mp ht with rfl | hmem
      · exact absurd hq hq2
      · obtain ⟨k, hk⟩ := ih ⟨t, hmem, hq⟩
        exact ⟨k, by simp [buildComposite, hq2, hk]⟩

lemma buildComposite_lookup_none {factors : List String} {w : List (String × ℚ)}
    {gath : List (String × List (String × ℚ))} {t : String}
    (hq : (tickerScores gath t).length ≠ factors.length) :
    ∀ (ts : List String) (comp : List (String × ℚ)),
      buildComposite factors w gath ts = .ok comp → comp.lookup t = none := by
  intro ts
  induction ts with
  | nil => intro comp h; cases h; rfl
  | cons t2 rest ih =>
    intro comp h
    simp only [buildComposite] at h
    split at h
    · rename_i hq2
      split at h
      · exact absurd h (by simp)
      · rename_i v hsum
        split at h
        · exact absurd h (by simp)
        · rename_i comp2 hrest
          cases h
          have hne : ¬ t2 = t := by
            rintro rfl
            exact hq hq2
          have hbeq : (t == t2) = false := beq_eq_false_iff_ne.mpr (fun hc => hne hc.symm)
          simp only [List.lookup, hbeq]
          exact ih comp2 hrest
    · exact ih comp h

/-- Membership in the `all_scores` key order. -/
lemma allTickers_mem {gath : List (String × List (String × ℚ))} {t : String}
    (h : ∃ pr ∈ gath, t ∈ pr.2.map Prod.fst) : t ∈ allTickers gath := by
  have hinner : ∀ (sc : List (String × ℚ)) (acc : List String),
      t ∈ sc.foldl (fun a p => if a.contains p.1 then a else a ++ [p.1]) acc ↔
        t ∈ acc ∨ t ∈ sc.map Prod.fst := by
    intro sc
    induction sc with
    | nil => intro acc; simp
    | cons p ps ih =>
      intro acc
      simp only [List.foldl_cons]
      rw [ih]
      by_cases hc : acc.contains p.1
      · simp only [hc, if_true]
        constructor
        · rintro (h2 | h2)
          · exact Or.inl h2
          · exact Or.inr (List.mem_cons_of_mem _ h2)
        · rintro (h2 | h2)
          · exact Or.inl h2
          · rcases List.mem_cons.mp h2 with rfl | h3
            · exact Or.inl (List.mem_of_elem_eq_true hc)
            · exact Or.inr h3
      · simp only [hc, if_false]
        constructor
        · rintro (h2 | h2)
          · rcases List.mem_append.mp h2 with h3 | h3
            · exact Or.inl h3
            · simp only [List.mem_singleton] at h3
              exact Or.inr (h3 ▸ List.mem_cons_self _ _)
          · exact Or.inr (List.mem_cons_of_mem _ h2)
        · rintro (h2 | h2)
          · exact Or.inl (List.mem_append.mpr (Or.inl h2))
          · rcases List.mem_cons.mp h2 with rfl | h3
            · exact Or.inl (List.mem_append.mpr (Or.inr (List.mem_singleton.mpr rfl)))
            · exact Or.inr h3
  have houter : ∀ (g2 : List (String × List (String × ℚ))) (acc : List String),
      t ∈ g2.foldl (fun acc fs =>
        fs.2.foldl (fun a p => if a.contains p.1 then a else a ++ [p.1]) acc) acc ↔
        t ∈ acc ∨ ∃ pr ∈ g2, t ∈ pr.2.map Prod.fst := by
    intro g2
    induction g2 with
    | nil => intro acc; simp
    | cons pr2 rest ih =>
      intro acc
      simp only [List.foldl_cons]
      rw [ih, hinner]
      constructor
      · rintro ((h2 | h2) | ⟨pr3, hm, h3⟩)
        · exact Or.inl h2
        · exact Or.inr ⟨pr2, List.mem_cons_self _ _, h2⟩
        · exact Or.inr ⟨pr3, List.mem_cons_of_mem _ hm, h3⟩
      · rintro (h2 | ⟨pr3, hm, h3⟩)
        · exact Or.inl (Or.inl h2)
        · rcases List.mem_cons.mp hm with rfl | h4
          · exact Or.inl (Or.inr h3)
          · exact Or.inr ⟨pr3, h4, h3⟩
  rw [allTickers, houter]
  exact Or.inr h

/-- A ticker present in every factor's result covers all duplicate-free
factors. -/
lemma tickerScores_length_eq {gath : List (String × List (String × ℚ))} {t : String}
    (hall : ∀ pr ∈ gath, (pr.2.lookup t).isSome)
    (hnd : (gath.map Prod.fst).Nodup) :
    (tickerScores gath t).length = gath.length := by
  have hperm : List.Perm (keysOf (tickerScores gath t)) (gath.map Prod.fst) := by
    rw [List.perm_ext_iff_of_nodup tickerScores_keys_nodup hnd]
    intro k
    rw [tickerScores_keys_iff]
    constructor
    · rintro ⟨sc, hm, _⟩
      exact List.mem_map.mpr ⟨(k, sc), hm, rfl⟩
    · intro hk
      obtain ⟨pr, hpr, heq⟩ := List.mem_map.mp hk
      refine ⟨pr.2, ?_, hall pr hpr⟩
      rw [← heq]
      exact hpr
  rw [tickerScores_length_keys, hperm.length_eq, List.length_map]

/-- C7 (amended): whenever `calculate_composite` returns a result, the
returned (renormalized) weight map sums to exactly `1.0` — this holds for
every caller-supplied weights map whose values do not sum to zero, the
zero-sum case instead raising an uncaught `ZeroDivisionError` — and a
ticker lacking a score in any one of the gathered factor results is
entirely absent from the composite scores. -/
lemma normalized_sum (w0 : List (String × ℚ)) (htot : ¬ ((w0.map Prod.snd).sum = 0)) :
    ((w0.map (fun kv => (kv.1, kv.2 / (w0.map Prod.snd).sum))).map Prod.snd).sum = 1 := by
  rw [List.map_map]
  have hco : (Prod.snd ∘ fun kv : String × ℚ => (kv.1, kv.2 / (w0.map Prod.snd).sum)) =
      fun kv : String × ℚ => kv.2 / (w0.map Prod.snd).sum := rfl
  rw [hco, sum_map_div, div_self htot]

lemma composite_absent {env : FactorEnv} {st : CacheState} {now : ℚ}
    {factors : List String} {market date : String} {w : List (String × ℚ)}
    {gath0 : List (String × List (String × ℚ))} {st30 : CacheState}
    {comp : List (String × ℚ)}
    (hg0 : gatherScores env market date now factors st = .ok (gath0, st30))
    (hcomp : buildComposite factors w gath0 (allTickers gath0) = .ok comp) :
    ∀ gath st3, gatherScores env market date now factors st = .ok (gath, st3) →
      ∀ pr ∈ gath, ∀ t, pr.2.lookup t = none → comp.lookup t = none := by
  intro gath st3 hg pr hpr t hnone
  rw [hg0] at hg
  cases hg
  rcases pr with ⟨g, sc⟩
  have hq : (tickerScores gath0 t).length ≠ factors.length := by
    have hlen : gath0.length = factors.length := by
      rw [← gatherScores_fst env market date now factors st gath0 st30 hg0,
        List.length_map]
    by_cases hnd : (gath0.map Prod.fst).Nodup
    · have := tickerScores_length_lt hpr hnone hnd
      omega
    · have := tickerScores_length_lt_of_dup (t := t) hnd
      omega
  exact buildComposite_lookup_none hq _ comp hcomp

theorem C7_composite_weights (env : FactorEnv) (st : CacheState) (now : ℚ)
    (p : CCParams) (r : CompositeResult) (st2 : CacheState)
    (h : calculateComposite env st now p = .ok (r, st2)) :
    (r.weights.map Prod.snd).sum = 1
    ∧ ∀ gath st3, gatherScores env p.market p.date now p.factors st = .ok (gath, st3) →
        ∀ pr ∈ gath, ∀ t, pr.2.lookup t = none →
          r.compositeScores.lookup t = none := by
  simp only [calculateComposite] at h
  split at h
  · exact absurd h (by simp)
  · split at h
    · split at h
      · exact absurd h (by simp)
      · rename_i htot
        split at h
        · exact absurd h (by simp)
        · rename_i gath0 st30 hg0
          split at h
          · exact absurd h (by simp)
          · rename_i comp hcomp
            cases h
            exact ⟨normalized_sum _ htot, composite_absent hg0 hcomp⟩
    · split at h
      · exact absurd h (by simp)
      · rename_i htot
        split at h
        · exact absurd h (by simp)
        · rename_i gath0 st30 hg0
          split at h
          · exact absurd h (by simp)
          · rename_i comp hcomp
            cases h
            exact ⟨normalized_sum _ htot, composite_absent hg0 hcomp⟩

/-- Environment whose value factors compute a single-row frame with
ticker `A`. -/
def env10 : FactorEnv :=
  { valueCalc := fun _ _ _ => .ok [{ ticker := "A", rawValue := 1, score := 1 }],
    momentumCalc := fun _ _ _ => .error (.rpcError 1004 "No momentum data available" none),
    profitabilityCalc := fun _ _ _ => .error (.rpcError 1004 "No data" none) }

/-- Environment whose value factors compute an empty frame. -/
def env11 : FactorEnv :=
  { valueCalc := fun _ _ _ => .ok [],
    momentumCalc := fun _ _ _ => .error (.rpcError 1004 "No momentum data available" none),
    profitabilityCalc := fun _ _ _ => .error (.rpcError 1004 "No data" none) }

/-- C7 counterexample: caller-supplied weights summing to zero do not get
renormalized to sum 1 — `calculate_composite` instead raises an uncaught
`ZeroDivisionError` — so "regardless of the caller-supplied weights" is
too strong. -/
theorem C7_counterexample :
    calculateComposite env10 [] 0
      { factors := ["PER"], weights := [("PER", 0)],
        market := "KOSPI", date := "20240102" } = .error .pyZeroDivision := by
  have ha : asDict [("PER", (0 : ℚ))] = [("PER", 0)] := rfl
  have hsum : (([("PER", (0 : ℚ))]).map Prod.snd).sum = 0 := by simp
  simp [calculateComposite, ha, hsum]

def cc7w : CCParams :=
  { factors := ["PER"], weights := [("PER", 2)], market := "KOSPI", date := "20240102" }

/-- C7 witness: a concrete successful composite whose returned weight map
sums to 1 and misses no-score tickers. -/
theorem C7_witness :
    (([(("PER" : String), (1 : ℚ))].map Prod.snd).sum = 1)
    ∧ ∀ gath st3, gatherScores env11 "KOSPI" "20240102" 0 ["PER"] [] = .ok (gath, st3) →
        ∀ pr ∈ gath, ∀ t, pr.2.lookup t = none →
          (([] : List (String × ℚ)).lookup t = none) := by
  have h : calculateComposite env11 [] 0 cc7w =
      .ok ({ factors := ["PER"], weights := [("PER", 1)], date := "20240102",
             market := "KOSPI", compositeScores := [], count := 0 },
        [(cachePath "PER" "KOSPI" "20240102", ([], 0))]) := by
    have ha : asDict [("PER", (2 : ℚ))] = [("PER", 2)] := rfl
    have hg : gatherScores env11 "KOSPI" "20240102" 0 ["PER"] [] =
        .ok ([("PER", [])], [(cachePath "PER" "KOSPI" "20240102", ([], 0))]) := rfl
    have hsum : (([("PER", (2 : ℚ))]).map Prod.snd).sum = 2 := by simp
    have hb : buildComposite ["PER"] [("PER", (1 : ℚ))] [("PER", [])]
        (allTickers [("PER", [])]) = .ok [] := rfl
    simp [calculateComposite, cc7w, ha, hg, hsum, hb]
  exact C7_composite_weights env11 [] 0 cc7w _ _ h

/-- C10 (amended): with duplicate-free factors, a non-empty weights map
whose values do not sum to zero but which omits at least one requested
factor, and at least one ticker carrying a score in every gathered factor
result, `calculate_composite` does not return a defaulted-weight result:
it raises an uncaught `KeyError`, surfaced by the transport as internal
error `-32603`. -/
theorem C10_missing_weight (env : FactorEnv) (st : CacheState) (now : ℚ)
    (p : CCParams) (gath : List (String × List (String × ℚ))) (st2 : CacheState)
    (f t : String)
    (hnd : p.factors.Nodup)
    (hw : ¬ asDict p.weights = [])
    (htot : ¬ ((asDict p.weights).map Prod.snd).sum = 0)
    (hf : f ∈ p.factors)
    (hfw : (asDict p.weights).lookup f = none)
    (hg : gatherScores env p.market p.date now p.factors st = .ok (gath, st2))
    (ht : ∀ pr ∈ gath, (pr.2.lookup t).isSome) :
    ∃ k, calculateComposite env st now p = .error (.pyKeyError k) ∧
      surfacedCode (.pyKeyError k) = -32603 := by
  have hfst := gatherScores_fst env p.market p.date now p.factors st gath st2 hg
  have hfe : p.factors.isEmpty = false := by
    cases hfac : p.factors with
    | nil => rw [hfac] at hf; simp at hf
    | cons a l => rfl
  have hwe : (asDict p.weights).isEmpty = false := by
    cases hai : asDict p.weights with
    | nil => exact absurd hai hw
    | cons a l => rfl
  have hndg : (gath.map Prod.fst).Nodup := by rw [hfst]; exact hnd
  have hqlen : (tickerScores gath t).length = p.factors.length := by
    rw [tickerScores_length_eq ht hndg, ← hfst, List.length_map]
  have htmem : t ∈ allTickers gath := by
    obtain ⟨pr, hpr, _⟩ :=
      List.mem_map.mp (show f ∈ gath.map Prod.fst by rw [hfst]; exact hf)
    refine allTickers_mem ⟨pr, hpr, ?_⟩
    obtain ⟨v, hv⟩ := Option.isSome_iff_exists.mp (ht pr hpr)
    exact List.mem_map.mpr ⟨(t, v), lookup_mem hv, rfl⟩
  have hex : ∃ g ∈ p.factors,
      ((asDict p.weights).map
        (fun kv => (kv.1, kv.2 / ((asDict p.weights).map Prod.snd).sum))).lookup g
        = none := by
    refine ⟨f, hf, ?_⟩
    rw [lookup_map_val (asDict p.weights)
      (fun x => x / ((asDict p.weights).map Prod.snd).sum) f, hfw]
    rfl
  obtain ⟨k, hk⟩ := buildComposite_error hfst hex (allTickers gath) ⟨t, htmem, hqlen⟩
  refine ⟨k, ?_, rfl⟩
  simp only [calculateComposite, hfe, hwe, Bool.false_eq_true, if_false, if_neg htot,
    hg, hk]

def cc10 : CCParams :=
  { factors := ["PER", "PBR"], weights := [("PER", 1)],
    market := "KOSPI", date := "20240102" }

/-- C10 counterexample: when the (non-empty, factor-omitting) weights sum
to zero, the call raises `ZeroDivisionError` before any score is
gathered, not the lookup error the claim states — both surface as
`-32603`, but the claim's unconditional "raises an uncaught lookup error"
fails at this input. -/
theorem C10_counterexample :
    calculateComposite env10 [] 0
      { factors := ["PER", "PBR"], weights := [("PER", 0)],
        market := "KOSPI", date := "20240102" } = .error .pyZeroDivision
    ∧ BridgeErr.pyZeroDivision ≠ .pyKeyError "PBR" := by
  constructor
  · have ha : asDict [("PER", (0 : ℚ))] = [("PER", 0)] := rfl
    have hsum : (([("PER", (0 : ℚ))]).map Prod.snd).sum = 0 := by simp
    simp [calculateComposite, ha, hsum]
  · intro h
    cases h

/-- C10 witness: factors `[PER, PBR]` with weights only for `PER` and a
ticker `A` scored in both factors raise a `KeyError` surfaced as
`-32603`. -/
theorem C10_witness :
    ∃ k, calculateComposite env10 [] 0 cc10 = .error (.pyKeyError k) ∧
      surfacedCode (.pyKeyError k) = -32603 :=
  C10_missing_weight env10 [] 0 cc10
    [("PER", [("A", 1)]), ("PBR", [("A", 1)])]
    [(cachePath "PBR" "KOSPI" "20240102", ([{ ticker := "A", rawValue := 1, score := 1 }], 0)),
     (cachePath "PER" "KOSPI" "20240102", ([{ ticker := "A", rawValue := 1, score := 1 }], 0))]
    "PBR" "A"
    (by decide) (by decide)
    (by
      have ha : asDict [("PER", (1 : ℚ))] = [("PER", 1)] := rfl
      simp only [cc10]
      rw [ha]
      simp)
    (by decide) (by rfl) rfl (by decide)

/-! ### Screening: filtering, sorting and truncation facts -/

lemma applyCondition_ok {cols : List String} {f op : String} {v : ℚ}
    {rows rows2 : List ScreenRow}
    (h : applyCondition cols f op v rows = .ok rows2) :
    rows2 = rows.filter (fun r => opEval op (rowVal r f) v) := by
  unfold applyCondition at h
  split_ifs at h
  cases h
  rfl

lemma applyConds_rows (cols : List String) :
    ∀ (cs : List String) (rows : List ScreenRow) ps out,
      applyConds cols cs rows = .ok (ps, out) →
      out = rows.filter (fun r => cs.all (fun c => condTest c r)) := by
  intro cs
  induction cs with
  | nil =>
    intro rows ps out h
    cases h
    simp
  | cons c rest ih =>
    intro rows ps out h
    simp only [applyConds] at h
    split at h
    · exact absurd h (by simp)
    · rename_i f op v hpc
      split at h
      · exact absurd h (by simp)
      · rename_i rows2 hac
        split at h
        · exact absurd h (by simp)
        · rename_i ps2 out2 hrest
          cases h
          rw [ih rows2 ps2 out hrest, applyCondition_ok hac, List.filter_filter]
          refine List.filter_congr ?_
          intro r _
          simp [condTest, hpc, List.all_cons, Bool.and_comm]

lemma applyConds_parsed (cols : List String) :
    ∀ (cs : List String) (rows : List ScreenRow) ps out,
      applyConds cols cs rows = .ok (ps, out) → parseList cs = .ok ps := by
  intro cs
  induction cs with
  | nil => intro rows ps out h; cases h; rfl
  | cons c rest ih =>
    intro rows ps out h
    simp only [applyConds] at h
    split at h
    · exact absurd h (by simp)
    · rename_i f op v hpc
      split at h
      · exact absurd h (by simp)
      · rename_i rows2 hac
        split at h
        · exact absurd h (by simp)
        · rename_i ps2 out2 hrest
          cases h
          simp [parseList, hpc, ih rows2 ps2 out hrest]

lemma insertBy_length (le : α → α → Bool) (x : α) (l : List α) :
    (insertBy le x l).length = l.length + 1 := by
  induction l with
  | nil => rfl
  | cons y ys ih =>
    unfold insertBy
    split
    · simp
    · simp [ih]

lemma sortListBy_length (le : α → α → Bool) (l : List α) :
    (sortListBy le l).length = l.length := by
  induction l with
  | nil => rfl
  | cons y ys ih =>
    unfold sortListBy at ih ⊢
    simp [List.foldr_cons, insertBy_length, ih]

lemma sortedRows_length (sk : Option String) (so : String) (cols : List String)
    (rows : List ScreenRow) :
    (match optStr sk with
      | some c =>
        if cols.contains c || c = "name" then
          sortListBy (rowLe c (so = "asc")) rows
        else rows
      | none => rows).length = rows.length := by
  cases optStr sk with
  | none => rfl
  | some c =>
    dsimp only
    split
    · exact sortListBy_length _ _
    · rfl

lemma headI_length_le (n : Int) (l : List α) : (headI n l).length ≤ l.length := by
  unfold headI
  split <;> simp [List.length_take]

lemma headI_length_eq_of_length_eq (n : Int) {l1 l2 : List α}
    (h : l1.length = l2.length) : (headI n l1).length = (headI n l2).length := by
  unfold headI
  split <;> simp [List.length_take, h]

lemma headI_length_mono (n : Int) {l1 l2 : List α} (h : l1.length ≤ l2.length) :
    (headI n l1).length ≤ (headI n l2).length := by
  unfold headI
  split <;> simp [List.length_take] <;> omega

lemma optStr_ne_empty {s : Option String} {nm : String} (h : optStr s = some nm) :
    ¬ nm = "" := by
  cases s with
  | none => simp [optStr] at h
  | some t =>
    simp only [optStr] at h
    split at h
    · simp at h
    · rename_i hne
      cases h
      exact hne

/-- What a successful `screen` body guarantees about the payload. -/
lemma screenWith_ok {env : ScreenerEnv} {st : ScreensState} {p : ScreenParams}
    {conditions : List String} {r : ScreenPayload} {st2 : ScreensState}
    (h : screenWith env st p conditions = .ok (r, st2)) :
    ∃ snap, getDf env p.market p.date = .ok snap ∧
      r.conditions = conditions ∧
      parseList conditions = .ok r.parsed ∧
      r.market = p.market ∧ r.date = p.date ∧
      r.totalCount = snap.rows.length ∧
      r.matchCount = r.results.length ∧
      r.matchCount = (headI p.limit (snap.rows.filter
        (fun row => conditions.all (fun c => condTest c row)))).length ∧
      r.savedAs = p.save := by
  simp only [screenWith] at h
  split at h
  · exact absurd h (by simp)
  · split at h
    · exact absurd h (by simp)
    · rename_i snap hsnap
      split at h
      · exact absurd h (by simp)
      · rename_i parsed rows happ
        split at h
        · exact absurd h (by simp)
        · rename_i st3 hsave
          cases h
          refine ⟨snap, hsnap, rfl, applyConds_parsed _ _ _ _ _ happ, rfl, rfl, rfl, ?_, ?_, rfl⟩
          · simp [List.length_map]
          · simp only [List.length_map]
            refine headI_length_eq_of_length_eq p.limit ?_
            rw [sortedRows_length p.sortKey p.sortOrder snap.cols rows,
              applyConds_rows snap.cols conditions snap.rows parsed rows happ]

lemma screen_ok_core {env : ScreenerEnv} {st : ScreensState} {p : ScreenParams}
    {r : ScreenPayload} {st2 : ScreensState}
    (h : screen env st p = .ok (r, st2)) :
    ∃ conds, screenWith env st p conds = .ok (r, st2) ∧
      (p.load = none → conds = p.conditions) := by
  simp only [screen] at h
  split at h
  · exact absurd h (by simp)
  · rename_i conds hres
    refine ⟨conds, h, ?_⟩
    intro hload
    simp only [resolveConditions, hload, optStr] at hres
    cases hres
    rfl

lemma filter_length_mono {α : Type} {p q : α → Bool} (l : List α)
    (h : ∀ a ∈ l, q a = true → p a = true) :
    (l.filter q).length ≤ (l.filter p).length := by
  induction l with
  | nil => simp
  | cons a t ih =>
    have iht := ih (fun b hb => h b (List.mem_cons_of_mem _ hb))
    simp only [List.filter_cons]
    cases hq : q a with
    | true =>
      rw [h a (List.mem_cons_self _ _) hq]
      simpa using iht
    | false =>
      cases hp : p a with
      | true => simpa using le_trans iht (Nat.le_succ _)
      | false => simpa using iht

/-- C5: screening is conjunctive and monotonic: over the same snapshot
and settings, a superset condition list never yields a larger
`matchCount`, and every successful screen call satisfies
`matchCount ≤ totalCount`. -/
theorem C5_screen_monotone :
    (∀ (env : ScreenerEnv) (st : ScreensState) (p : ScreenParams)
        (c1 c2 : List String) (r1 : ScreenPayload) (s1 : ScreensState)
        (r2 : ScreenPayload) (s2 : ScreensState),
      (∀ c ∈ c1, c ∈ c2) → p.load = none →
      screen env st { p with conditions := c1 } = .ok (r1, s1) →
      screen env st { p with conditions := c2 } = .ok (r2, s2) →
      r2.matchCount ≤ r1.matchCount)
    ∧ (∀ (env : ScreenerEnv) (st : ScreensState) (p : ScreenParams)
        (r : ScreenPayload) (s : ScreensState),
        screen env st p = .ok (r, s) → r.matchCount ≤ r.totalCount) := by
  constructor
  · intro env st p c1 c2 r1 s1 r2 s2 hsub hload h1 h2
    obtain ⟨conds1, hw1, hc1⟩ := screen_ok_core h1
    obtain ⟨conds2, hw2, hc2⟩ := screen_ok_core h2
    have e1 : conds1 = c1 := hc1 hload
    have e2 : conds2 = c2 := hc2 hload
    rw [e1] at hw1
    rw [e2] at hw2
    obtain ⟨snap1, hdf1, _, _, _, _, _, _, hmc1, _⟩ := screenWith_ok hw1
    obtain ⟨snap2, hdf2, _, _, _, _, _, _, hmc2, _⟩ := screenWith_ok hw2
    have hdf1a : getDf env p.market p.date = .ok snap1 := hdf1
    have hdf2a : getDf env p.market p.date = .ok snap2 := hdf2
    rw [hdf1a] at hdf2a
    have hsnap : snap1 = snap2 := by
      cases hdf2a
      rfl
    subst hsnap
    have hmc1a : r1.matchCount = (headI p.limit (snap1.rows.filter
        (fun row => c1.all (fun c => condTest c row)))).length := hmc1
    have hmc2a : r2.matchCount = (headI p.limit (snap1.rows.filter
        (fun row => c2.all (fun c => condTest c row)))).length := hmc2
    rw [hmc1a, hmc2a]
    refine headI_length_mono p.limit ?_
    refine filter_length_mono snap1.rows ?_
    intro row _ hall
    simp only [List.all_eq_true] at hall ⊢
    exact fun c hc => hall c (hsub c hc)
  · intro env st p r s h
    obtain ⟨conds, hw, _⟩ := screen_ok_core h
    obtain ⟨snap, _, _, _, _, _, htc, _, hmc, _⟩ := screenWith_ok hw
    rw [hmc, htc]
    exact le_trans (headI_length_le _ _) (List.length_filter_le _ _)

/-- C6 (amended): every successful direct (non-`load`) screen call's
payload carries the raw condition strings, their parsed triples, the
pre-filter universe size as `totalCount`, the save name, and a
`matchCount` equal to the number of returned results — which is the
match count **after** the `limit` truncation, `min(limit, matching)`,
not the pre-truncation count the original claim states. -/
theorem C6_screen_payload (env : ScreenerEnv) (st : ScreensState) (p : ScreenParams)
    (r : ScreenPayload) (st2 : ScreensState) (hload : p.load = none)
    (h : screen env st p = .ok (r, st2)) :
    r.conditions = p.conditions
    ∧ parseList p.conditions = .ok r.parsed
    ∧ (∃ snap, getDf env p.market p.date = .ok snap ∧ r.totalCount = snap.rows.length ∧
        r.matchCount = (headI p.limit (snap.rows.filter
          (fun row => p.conditions.all (fun c => condTest c row)))).length)
    ∧ r.matchCount = r.results.length
    ∧ r.savedAs = p.save := by
  obtain ⟨conds, hw, hc⟩ := screen_ok_core h
  rw [hc hload] at hw
  obtain ⟨snap, hdf, hconds, hparsed, _, _, htc, hmr, hmc, hsv⟩ := screenWith_ok hw
  exact ⟨hconds, hparsed, ⟨snap, hdf, htc, hmc⟩, hmr, hsv⟩

/-! ### Concrete screener scenario -/

lemma parseCondition_PER_gt7 : parseCondition "PER>7" = .ok ("PER", ">", 7) := by
  have h : parseCondition "PER>7"
      = .ok ("PER", ">", ((7 : ℕ) : ℚ) + ((0 : ℕ) : ℚ) / (10 : ℚ) ^ (0 : ℕ)) := rfl
  rw [h]; norm_num

def row61 : ScreenRow := { ticker := "T1", name := "Alpha", values := [("PER", some 5)] }

def row62 : ScreenRow := { ticker := "T2", name := "Beta", values := [("PER", some 5)] }

def snap6 : Snapshot := { cols := ["PER"], rows := [row61, row62] }

def env6 : ScreenerEnv := { marketData := fun _ _ => .ok snap6 }

/-- Limit 1, so only one of the two matching rows is returned. -/
def p6 : ScreenParams :=
  { conditions := ["PER<10"], market := "KOSPI", date := "20240102", limit := 1 }

def R6 : ScreenPayload :=
  { conditions := ["PER<10"], parsed := [("PER", "<", 10)], market := "KOSPI",
    date := "20240102", matchCount := 1, totalCount := 2,
    results := [{ ticker := "T1", name := "Alpha", values := [("PER", pyRound 5 2)] }],
    savedAs := none }

lemma screen_eval_p6 : screen env6 [] p6 = .ok (R6, []) := by
  have hdf : getDf env6 "KOSPI" "20240102" = .ok snap6 := rfl
  have hac : applyCondition snap6.cols "PER" "<" 10 snap6.rows = .ok snap6.rows := rfl
  have happ : applyConds snap6.cols ["PER<10"] snap6.rows
      = .ok ([("PER", "<", 10)], snap6.rows) := by
    simp [applyConds, parseCondition_PER10, hac]
  have hhead : headI (1 : Int) snap6.rows = [row61] := rfl
  have hres : resultOf snap6.cols row61
      = ({ ticker := "T1", name := "Alpha", values := [("PER", pyRound 5 2)] } : ResultEntry) := rfl
  have htc : snap6.rows.length = 2 := rfl
  simp [screen, resolveConditions, screenWith, p6, optStr, hdf, happ, hhead, hres, htc, R6]

def okMatchCount (e : Except BridgeErr (ScreenPayload × ScreensState)) : Option Nat :=
  match e with
  | .ok (r, _) => some r.matchCount
  | .error _ => none

/-- C6 counterexample: two rows match `PER<10` but with `limit = 1` the
payload reports `matchCount = 1`: `matchCount` counts the rows after the
limit truncation, not the pre-truncation match count the claim states. -/
theorem C6_counterexample :
    okMatchCount (screen env6 [] p6) = some 1
    ∧ (snap6.rows.filter
        (fun row => p6.conditions.all (fun c => condTest c row))).length = 2
    ∧ (1 : ℕ) ≠ 2 := by
  refine ⟨?_, ?_, by decide⟩
  · rw [screen_eval_p6]
    rfl
  · have h1 : condTest "PER<10" row61 = true := by
      simp only [condTest, parseCondition_PER10]
      decide
    have h2 : condTest "PER<10" row62 = true := by
      simp only [condTest, parseCondition_PER10]
      decide
    simp [snap6, p6, List.filter, h1, h2]

/-- Default limit (100), one condition: both rows match. -/
def pC1 : ScreenParams :=
  { conditions := ["PER<10"], market := "KOSPI", date := "20240102" }

def R61 : ScreenPayload :=
  { conditions := ["PER<10"], parsed := [("PER", "<", 10)], market := "KOSPI",
    date := "20240102", matchCount := 2, totalCount := 2,
    results := [{ ticker := "T1", name := "Alpha", values := [("PER", pyRound 5 2)] },
                { ticker := "T2", name := "Beta", values := [("PER", pyRound 5 2)] }],
    savedAs := none }

lemma screen_eval_c1 : screen env6 [] pC1 = .ok (R61, []) := by
  have hdf : getDf env6 "KOSPI" "20240102" = .ok snap6 := rfl
  have hac : applyCondition snap6.cols "PER" "<" 10 snap6.rows = .ok snap6.rows := rfl
  have happ : applyConds snap6.cols ["PER<10"] snap6.rows
      = .ok ([("PER", "<", 10)], snap6.rows) := by
    simp [applyConds, parseCondition_PER10, hac]
  have hhead : headI (100 : Int) snap6.rows = [row61, row62] := rfl
  have hres1 : resultOf snap6.cols row61
      = ({ ticker := "T1", name := "Alpha", values := [("PER", pyRound 5 2)] } : ResultEntry) := rfl
  have hres2 : resultOf snap6.cols row62
      = ({ ticker := "T2", name := "Beta", values := [("PER", pyRound 5 2)] } : ResultEntry) := rfl
  have htc : snap6.rows.length = 2 := rfl
  simp [screen, resolveConditions, screenWith, pC1, optStr, hdf, happ, hhead,
    hres1, hres2, htc, R61]

/-- The superset condition list: the second condition filters
everything out. -/
def pC2 : ScreenParams :=
  { conditions := ["PER<10", "PER>7"], market := "KOSPI", date := "20240102" }

def R62 : ScreenPayload :=
  { conditions := ["PER<10", "PER>7"],
    parsed := [("PER", "<", 10), ("PER", ">", 7)], market := "KOSPI",
    date := "20240102", matchCount := 0, totalCount := 2, results := [],
    savedAs := none }

lemma screen_eval_c2 : screen env6 [] pC2 = .ok (R62, []) := by
  have hdf : getDf env6 "KOSPI" "20240102" = .ok snap6 := rfl
  have hac1 : applyCondition snap6.cols "PER" "<" 10 snap6.rows = .ok snap6.rows := rfl
  have hac2 : applyCondition snap6.cols "PER" ">" 7 snap6.rows = .ok [] := rfl
  have happ : applyConds snap6.cols ["PER<10", "PER>7"] snap6.rows
      = .ok ([("PER", "<", 10), ("PER", ">", 7)], []) := by
    simp [applyConds, parseCondition_PER10, parseCondition_PER_gt7, hac1, hac2]
  have htc : snap6.rows.length = 2 := rfl
  simp [screen, resolveConditions, screenWith, pC2, optStr, hdf, happ, htc, headI, R62]

/-- C5 witness: the monotonicity and bound conjuncts applied to the
concrete two-row snapshot. -/
theorem C5_witness :
    R62.matchCount ≤ R61.matchCount ∧ R61.matchCount ≤ R61.totalCount :=
  ⟨C5_screen_monotone.1 env6 [] pC1 ["PER<10"] ["PER<10", "PER>7"] R61 [] R62 []
      (by decide) rfl screen_eval_c1 screen_eval_c2,
   C5_screen_monotone.2 env6 [] pC1 R61 [] screen_eval_c1⟩

/-- C6 witness: the amended payload description applied to the concrete
limit-1 screen call. -/
theorem C6_witness :
    R6.conditions = p6.conditions
    ∧ parseList p6.conditions = .ok R6.parsed
    ∧ (∃ snap, getDf env6 p6.market p6.date = .ok snap ∧
        R6.totalCount = snap.rows.length ∧
        R6.matchCount = (headI p6.limit (snap.rows.filter
          (fun row => p6.conditions.all (fun c => condTest c row)))).length)
    ∧ R6.matchCount = R6.results.length
    ∧ R6.savedAs = p6.save :=
  C6_screen_payload env6 [] p6 R6 [] rfl screen_eval_p6

end QuantK
